import Mathlib

/-!
Verification of the honeypot web application (`src/main.py`) against its
natural-language specification.

The development shallowly embeds the program's data model and operations:

* a JSON layer modelling the subset of `json.dumps` / `json.loads` that the
  event-log pipeline exercises (flat objects of scalar fields, plus bare
  scalar values at top level);
* the HTTP-facing operations of `main.py`: the capture middleware
  (`logger`), the decoy route handler (`show_profile`), the client event
  ingest (`track_event`), the authentication check (`is_logged_in`) and the
  three admin endpoints (`admin_logs`, `admin_stats`, `export_csv`).

Machine-level conventions: timestamps are modelled as integers on the UTC
timeline (seconds); `datetime.fromisoformat` is abstracted as an explicit
function argument `fromIso : String -> Option Int` because no claim depends
on calendar arithmetic, only on whether a timestamp string parses and how
the parsed value compares to the cutoff.  `uuid4` is modelled as an
injective fresh-name supply indexed by a counter stored in the world state.
-/

namespace Honeypot

/-! ## JSON values

`main.py` writes events with `json.dumps(obj, ensure_ascii=False)` (one flat
dict of scalars per line) and reads them back with `json.loads`.  `JVal` is
the type of scalar JSON values occurring as fields of an event; `JTop` is a
top-level parse result, which is either an object or a bare scalar (a log
line such as `3` is valid JSON but not an object). -/

inductive JVal where
  | str (s : String)
  | int (n : Int)
  | bool (b : Bool)
  | null
deriving DecidableEq

/-- A flat JSON object: association list from keys to scalar values, in
insertion order (Python dicts preserve insertion order). -/
abbrev JObj := List (String × JVal)

inductive JTop where
  | obj (fs : JObj)
  | val (v : JVal)
deriving DecidableEq

/-! ### Serialization (model of `json.dumps` with default separators) -/

/-- Decimal digits of `n`, most significant first, via a fuel-indexed
structurally recursive worker so that the kernel can evaluate it. -/
def natDecAux : Nat → Nat → List Char
  | 0, _ => []
  | fuel + 1, n =>
    if n < 10 then [Nat.digitChar n]
    else natDecAux fuel (n / 10) ++ [Nat.digitChar (n % 10)]

def natDec (n : Nat) : List Char := natDecAux (n + 1) n

/-- Decimal rendering of an integer, as Python `repr`/`json.dumps` emit it. -/
def intDec (n : Int) : List Char :=
  if n < 0 then '-' :: natDec n.natAbs else natDec n.toNat

/-- JSON string escaping as performed by `json.dumps(ensure_ascii=False)`:
quote, backslash and the five named control characters get two-character
escapes, all other control characters below 0x20 get a `\u00xx` escape with
lowercase hex digits, everything else is emitted raw. -/
def escChar (c : Char) : List Char :=
  if c = '"' then ['\\', '"']
  else if c = '\\' then ['\\', '\\']
  else if c = '\n' then ['\\', 'n']
  else if c = '\t' then ['\\', 't']
  else if c = '\r' then ['\\', 'r']
  else if c = '\x08' then ['\\', 'b']
  else if c = '\x0c' then ['\\', 'f']
  else if c.toNat < 32 then
    ['\\', 'u', '0', '0', Nat.digitChar (c.toNat / 16), Nat.digitChar (c.toNat % 16)]
  else [c]

/-- Escaped rendering of a character sequence. -/
def escList (cs : List Char) : List Char :=
  cs.foldr (fun c acc => escChar c ++ acc) []

def encStr (s : String) : List Char :=
  '"' :: escList s.toList ++ ['"']

def encVal : JVal → List Char
  | .str s => encStr s
  | .int n => intDec n
  | .bool b => if b then ['t', 'r', 'u', 'e'] else ['f', 'a', 'l', 's', 'e']
  | .null => ['n', 'u', 'l', 'l']

/-- Members of an object, separated by `", "` with `": "` after each key
(the default separators of `json.dumps`). -/
def encItems : JObj → List Char
  | [] => []
  | [(k, v)] => encStr k ++ ':' :: ' ' :: encVal v
  | (k, v) :: rest => encStr k ++ ':' :: ' ' :: encVal v ++ ',' :: ' ' :: encItems rest

/-- Model of `json.dumps(obj, ensure_ascii=False)` for a flat event dict. -/
def dumps (o : JObj) : String :=
  String.mk ('{' :: encItems o ++ ['}'])

/-! ### Parsing (model of `json.loads` on the emitted grammar) -/

def isWs (c : Char) : Bool :=
  c = ' ' || c = '\t' || c = '\n' || c = '\r'

def skipWs (cs : List Char) : List Char := cs.dropWhile isWs

/-- Hex digit value, lowercase and uppercase accepted as by `json.loads`. -/
def hexNat (c : Char) : Option Nat :=
  if '0' ≤ c ∧ c ≤ '9' then some (c.toNat - '0'.toNat)
  else if 'a' ≤ c ∧ c ≤ 'f' then some (c.toNat - 'a'.toNat + 10)
  else if 'A' ≤ c ∧ c ≤ 'F' then some (c.toNat - 'A'.toNat + 10)
  else none

/-- Body of a JSON string after the opening quote: returns the decoded
characters and the input remaining after the closing quote.  Raw control
characters are rejected (`json.loads` strict mode). -/
def parseStrBody : List Char → Option (List Char × List Char)
  | [] => none
  | c :: cs =>
    if c = '"' then some ([], cs)
    else if c = '\\' then
      match cs with
      | [] => none
      | e :: cs2 =>
        if e = '"' then (fun p => ('"' :: p.1, p.2)) <$> parseStrBody cs2
        else if e = '\\' then (fun p => ('\\' :: p.1, p.2)) <$> parseStrBody cs2
        else if e = '/' then (fun p => ('/' :: p.1, p.2)) <$> parseStrBody cs2
        else if e = 'b' then (fun p => ('\x08' :: p.1, p.2)) <$> parseStrBody cs2
        else if e = 'f' then (fun p => ('\x0c' :: p.1, p.2)) <$> parseStrBody cs2
        else if e = 'n' then (fun p => ('\n' :: p.1, p.2)) <$> parseStrBody cs2
        else if e = 'r' then (fun p => ('\r' :: p.1, p.2)) <$> parseStrBody cs2
        else if e = 't' then (fun p => ('\t' :: p.1, p.2)) <$> parseStrBody cs2
        else if e = 'u' then
          match cs2 with
          | h1 :: h2 :: h3 :: h4 :: cs3 =>
            match hexNat h1, hexNat h2, hexNat h3, hexNat h4 with
            | some a, some b, some d, some g =>
              (fun p => (Char.ofNat (((a * 16 + b) * 16 + d) * 16 + g) :: p.1, p.2)) <$>
                parseStrBody cs3
            | _, _, _, _ => none
          | _ => none
        else none
    else if c.toNat < 32 then none
    else (fun p => (c :: p.1, p.2)) <$> parseStrBody cs

/-- Consume a maximal run of decimal digits, folding them onto `acc`. -/
def parseDigits : List Char → Nat → Nat × List Char
  | [], acc => (acc, [])
  | c :: cs, acc =>
    if c.isDigit then parseDigits cs (acc * 10 + (c.toNat - '0'.toNat))
    else (acc, c :: cs)

/-- Scalar JSON value (string, integer, boolean, null). -/
def parseVal (cs : List Char) : Option (JVal × List Char) :=
  match cs with
  | [] => none
  | c :: cs1 =>
    if c = '"' then (fun p => (JVal.str (String.mk p.1), p.2)) <$> parseStrBody cs1
    else if c = '-' then
      match cs1 with
      | [] => none
      | c2 :: _ =>
        if c2.isDigit then
          let p := parseDigits cs1 0
          some (.int (-(p.1 : Int)), p.2)
        else none
    else if c.isDigit then
      let p := parseDigits cs 0
      some (.int (p.1 : Int), p.2)
    else
      match cs with
      | 't' :: 'r' :: 'u' :: 'e' :: r => some (.bool true, r)
      | 'f' :: 'a' :: 'l' :: 's' :: 'e' :: r => some (.bool false, r)
      | 'n' :: 'u' :: 'l' :: 'l' :: r => some (.null, r)
      | _ => none

/-- Members of a nonempty object; `fuel` bounds the number of members. -/
def parseMembers : Nat → List Char → Option (JObj × List Char)
  | 0, _ => none
  | fuel + 1, cs =>
    match skipWs cs with
    | '"' :: cs1 =>
      match parseStrBody cs1 with
      | none => none
      | some (kcs, cs2) =>
        match skipWs cs2 with
        | ':' :: cs3 =>
          match parseVal (skipWs cs3) with
          | none => none
          | some (v, cs4) =>
            match skipWs cs4 with
            | ',' :: cs5 =>
              match parseMembers fuel cs5 with
              | none => none
              | some (rest, cs6) => some ((String.mk kcs, v) :: rest, cs6)
            | '}' :: cs5 => some ([(String.mk kcs, v)], cs5)
            | _ => none
        | _ => none
    | _ => none

/-- Body of an object after the opening brace: an immediate closing brace
yields the empty object, otherwise the member list is parsed (the input
length bounds the member count, since each member is at least one character). -/
def parseObjTail (cs : List Char) : Option (JTop × List Char) :=
  match skipWs cs with
  | [] => none
  | c :: cs2 =>
    if c = '}' then some (.obj [], cs2)
    else
      match parseMembers (c :: cs2).length (c :: cs2) with
      | none => none
      | some (fs, r2) => some (.obj fs, r2)

/-- Top-level JSON value: an object or a bare scalar. -/
def parseTop (cs0 : List Char) : Option (JTop × List Char) :=
  match skipWs cs0 with
  | [] => none
  | c :: cs =>
    if c = '{' then parseObjTail cs
    else
      match parseVal (c :: cs) with
      | none => none
      | some (v, r2) => some (.val v, r2)

/-- Model of `json.loads` on one log line: the whole input must be consumed
up to trailing whitespace. -/
def loads (s : String) : Option JTop :=
  match parseTop s.toList with
  | some (v, rest) => if skipWs rest = [] then some v else none
  | none => none

example : loads (dumps []) = some (.obj []) := by decide
example : loads (dumps [("kind", .str "request")]) = some (.obj [("kind", .str "request")]) := by
  decide
example : loads (String.mk ['3']) = some (.val (.int 3)) := by decide
example : loads (String.mk ['n', 'o', 'p', 'e', '!']) = none := by decide

/-! ## Python-level helpers -/

/-- Python `str()` of a JSON-decoded scalar (`str(None) = "None"`,
`str(True) = "True"`, integers in decimal). -/
def pyStr : JVal → String
  | .str s => s
  | .int n => String.mk (intDec n)
  | .bool b => if b then "True" else "False"
  | .null => "None"

/-- Python `str(x)` where `x` is the result of `dict.get` (possibly `None`). -/
def pyStrOpt : Option JVal → String
  | none => "None"
  | some v => pyStr v

/-- Python list slice `l[-limit:]` as used by `admin_logs` and `export_csv`
(`lines[-int(tail):]`): for `limit > 0` the last `min limit (length l)`
elements, for `limit = 0` the whole list, for `limit < 0` the list with its
first `-limit` elements dropped. -/
def pyTail (limit : Int) (l : List α) : List α :=
  let n : Int := l.length
  let m : Int := -limit
  let start : Int := if m < 0 then max (n + m) 0 else min m n
  l.drop start.toNat

/-- Python `s.replace(",", ";")` (single-character pattern, so a character
map) as used by `export_csv` on cell values. -/
def replaceComma (s : String) : String :=
  String.mk (s.toList.map (fun c => if c = ',' then ';' else c))

/-- Python `s.replace("Z", "+00:00")` (single-character pattern) applied to
the `ts` field before `datetime.fromisoformat`. -/
def replaceZ (s : String) : String :=
  String.mk (s.toList.foldr
    (fun c acc => if c = 'Z' then '+' :: '0' :: '0' :: ':' :: '0' :: '0' :: acc else c :: acc) [])

/-! ## Counters (model of `collections.Counter`)

A counter is an association list in key insertion order: `c[k] += 1` on a
missing key inserts it at the end (Python dicts preserve insertion order),
so keys are ordered by first encounter. -/

abbrev Counter := List (JVal × Nat)

/-- `c[k] += 1` on a Python `Counter`: an existing key is bumped in place,
keeping its position; a missing key (`__missing__` returns 0) is inserted
at the end. -/
def Counter.incr : Counter → JVal → Counter
  | [], k => [(k, 1)]
  | (k0, n) :: rest, k =>
    if k0 = k then (k0, n + 1) :: rest else (k0, n) :: Counter.incr rest k

/-- Stable insertion into a descending-by-count list: the new element goes
before the first entry whose count is not larger, so that among equal counts
the earlier-inserted element (which is inserted later by the `foldr` in
`sortDesc`) stays first. -/
def insertDesc (x : JVal × Nat) : List (JVal × Nat) → List (JVal × Nat)
  | [] => [x]
  | y :: ys => if x.2 < y.2 then y :: insertDesc x ys else x :: y :: ys

/-- Stable descending sort by count. -/
def sortDesc (c : Counter) : List (JVal × Nat) := c.foldr insertDesc []

/-- Model of `Counter.most_common(n)`: `heapq.nlargest(n, items, key=count)`,
documented as equivalent to a stable descending sort followed by `take n`. -/
def Counter.mostCommon (n : Nat) (c : Counter) : List (JVal × Nat) :=
  (sortDesc c).take n

/-! ## Application state and request model -/

/-- Python exceptions that can escape the modelled handlers. -/
inductive PyErr where
  | attributeError
  | runtimeError
deriving DecidableEq

/-- The mutable world: the event log (list of appended event objects; the
bytes written per append are `log_line`), the `uuid4` supply counter and the
wall-clock counter feeding `now_iso`. -/
structure World where
  log : List JObj
  nextUuid : Nat
  clock : Nat
deriving DecidableEq

/-- `uuid4()` modelled as an injective fresh-identifier supply. -/
def uuid4 (n : Nat) : String := String.mk ('u' :: '-' :: natDec n)

/-- `now_iso()` modelled as a fresh timestamp string from the clock counter
(the claims never inspect its contents). -/
def now_iso (n : Nat) : String := String.mk ('T' :: natDec n)

def World.tick (w : World) : String × World :=
  (now_iso w.clock, { w with clock := w.clock + 1 })

def World.fresh (w : World) : String × World :=
  (uuid4 w.nextUuid, { w with nextUuid := w.nextUuid + 1 })

/-- `log_event(obj)` appends one event object to the log
(`fh.write(json.dumps(obj, ensure_ascii=False) + "\n")`). -/
def log_event (w : World) (o : JObj) : World :=
  { w with log := w.log ++ [o] }

/-- The exact line written to the event-log file by one `log_event` call. -/
def log_line (o : JObj) : String := dumps o ++ String.mk ['\n']

/-- An inbound HTTP request as the handlers observe it. -/
structure Req where
  cookies : List (String × String)
  xForwardedFor : String
  clientHost : Option String
  path : String
  method : String
deriving DecidableEq

/-- An outbound HTTP response: status code and cookies set on it. -/
structure Resp where
  status : Nat
  setCookies : List (String × String)
  body : String
deriving DecidableEq

/-- `PROFILE_NAMES` from `main.py`. -/
def PROFILE_NAMES : List String := ["Jack", "Emi", "Noah", "Lexi", "John", "Mark", "Noelle"]

/-- `HONEY_ROUTES = {f"/{p}" for p in PROFILE_NAMES}`. -/
def HONEY_ROUTES : List String := PROFILE_NAMES.map (fun p => "/" ++ p)

/-- `sid_from_req`: `req.cookies.get("hp_sid") or str(uuid4())` — the cookie
value when present and truthy (nonempty), else a fresh uuid; `or` makes an
empty-string cookie fall through to a fresh uuid. -/
def sid_from_req (req : Req) (w : World) : String × World :=
  match req.cookies.lookup "hp_sid" with
  | some v => if v = "" then w.fresh else (v, w)
  | none => w.fresh

/-- `ip_from_req`: first entry of `x-forwarded-for` when the header is
nonempty, else the peer address, else `"0.0.0.0"`. -/
def ip_from_req (req : Req) : String :=
  if req.xForwardedFor ≠ "" then
    (((req.xForwardedFor.splitOn ",").headD "").trim)
  else
    match req.clientHost with
    | some h => h
    | none => "0.0.0.0"

/-- Outbound-notification environment: Telegram credentials and whether the
`requests.post` call would succeed. -/
structure NotifEnv where
  token : String
  chat : String
  sendOk : Bool

/-- The outbound `requests.post` call; failure is an exception. -/
def telegramPost (env : NotifEnv) : Except Unit Unit :=
  if env.sendOk then .ok () else .error ()

/-- `notify_telegram`: silent no-op when credentials are missing, otherwise
a single post whose failure is caught and only printed — the function never
raises and never touches the event log. -/
def notify_telegram (env : NotifEnv) (_msg : String) : Unit :=
  if env.token = "" ∨ env.chat = "" then ()
  else
    match telegramPost env with
    | .ok _ => ()
    | .error _ => ()

/-- A route handler as the middleware sees it: it may raise, and it may
append events of its own. -/
abbrev Handler := Req → World → Except PyErr Resp × World

/-- The event dict built at line 80 of `main.py`. -/
def request_event (ts s ip route method : String) : JObj :=
  [("ts", .str ts), ("kind", .str "request"), ("sid", .str s), ("ip", .str ip),
   ("route", .str route), ("method", .str method)]

/-- The event dict built at line 82 of `main.py`. -/
def response_event (ts s ip route : String) (status : Nat) (honey : Bool) : JObj :=
  [("ts", .str ts), ("kind", .str "response"), ("sid", .str s), ("ip", .str ip),
   ("route", .str route), ("status", .int status), ("is_honey", .bool honey)]

/-- The part of the capture middleware that runs before dispatch: resolve
the sid and append the `request` event.  Returns the resolved sid and the
world in which the wrapped handler runs. -/
def loggerPre (req : Req) (w : World) : String × World :=
  let p := sid_from_req req w
  let q := p.2.tick
  (p.1, log_event q.2 (request_event q.1 p.1 (ip_from_req req) req.path req.method))

/-- The capture middleware `logger` (`@app.middleware("http")`): append a
`request` event, dispatch, and — when the handler returns a response —
append a `response` event with the final status and stamp the session
cookie if the inbound request carried none.  An exception from the handler
propagates; there is no `try/finally`, so no `response` event is written in
that case. -/
def logger (handler : Handler) (req : Req) (w : World) : Except PyErr Resp × World :=
  let pre := loggerPre req w
  let s := pre.1
  match handler req pre.2 with
  | (.ok res, w4) =>
    let q := w4.tick
    let honey := HONEY_ROUTES.contains req.path
    let w6 := log_event q.2 (response_event q.1 s (ip_from_req req) req.path res.status honey)
    let res2 :=
      if (req.cookies.lookup "hp_sid").isNone then
        { res with setCookies := res.setCookies ++ [("hp_sid", s)] }
      else res
    (.ok res2, w6)
  | (.error e, w4) => (.error e, w4)

/-- The event dict built at line 109 of `main.py`. -/
def profile_view_event (ts name ip s : String) : JObj :=
  [("ts", .str ts), ("kind", .str "profile_view"), ("profile", .str name),
   ("ip", .str ip), ("sid", .str s)]

/-- The decoy route handler `show_profile` (`GET /{name}`): 404 for a name
outside `PROFILE_NAMES`; otherwise append a `profile_view` event, fire the
notifier (result ignored) and render the profile page.  Note that it calls
`sid_from_req` again, independently of the middleware. -/
def show_profile (env : NotifEnv) (name : String) : Handler := fun req w =>
  if ¬ PROFILE_NAMES.contains name then
    (.ok { status := 404, setCookies := [], body := "Profile not found" }, w)
  else
    let visitorIp := ip_from_req req
    let p := sid_from_req req w
    let q := p.2.tick
    let w3 := log_event q.2 (profile_view_event q.1 name visitorIp p.1)
    let _u := notify_telegram env ("ALERT profile " ++ name ++ " IP " ++ visitorIp)
    (.ok { status := 200, setCookies := [], body := "profile " ++ name }, w3)

/-- The event dict built at line 124 of `main.py`. -/
def client_event (ts s ip action label : String) : JObj :=
  [("ts", .str ts), ("kind", .str "client"), ("sid", .str s), ("ip", .str ip),
   ("action", .str action), ("label", .str label)]

/-- The client-event ingest `track_event` (`POST /event`).  `body` is the
result of `await request.json()` wrapped in the bare `except` of lines
119–122: `none` when the body failed to parse (then `data = {}`), otherwise
the decoded JSON value.  `data.get` on a decoded non-object raises
`AttributeError`, which nothing catches. -/
def track_event (env : NotifEnv) (body : Option JTop) : Handler := fun req w =>
  let data : JTop := body.getD (.obj [])
  let p := sid_from_req req w
  match data with
  | .val _ => (.error .attributeError, p.2)
  | .obj fs =>
    let action := pyStrOpt (fs.lookup "action")
    let label := pyStrOpt (fs.lookup "label")
    let q := p.2.tick
    let e := client_event q.1 p.1 (ip_from_req req) action label
    let w3 := log_event q.2 e
    let _u :=
      if action = "click" ∧ PROFILE_NAMES.contains label then
        notify_telegram env ("Click detected " ++ label)
      else ()
    (.ok { status := 200, setCookies := [], body := dumps [("ok", .bool true)] }, w3)

/-! ## Admin endpoints -/

/-- An admin session (`request.session`). -/
abbrev Session := List (String × String)

/-- `is_logged_in`: the session's `user` entry equals the configured admin
username. -/
def is_logged_in (adminUser : String) (sess : Session) : Bool :=
  sess.lookup "user" = some adminUser

/-- Result of `admin_logs`. -/
inductive LogsRes where
  | redirect (loc : String) (code : Nat)
  | noEvents (msg : String)
  | page (events : List JTop) (tail : Int)
deriving DecidableEq

/-- One iteration of the loop at lines 161–165: a parseable line is appended
as parsed, an unparseable one as `{"raw": ln}`. -/
def logRec (ln : String) : JTop :=
  match loads ln with
  | some v => v
  | none => .obj [("raw", .str ln)]

/-- `GET /_admin/logs?tail=N`: redirect when unauthenticated, a placeholder
text when the log file is absent, otherwise the last `tail` lines each
turned into a record (unparseable lines kept as `{"raw": ln}`), rendered in
reversed order. -/
def admin_logs (adminUser : String) (sess : Session) (tail : Int)
    (file : Option (List String)) : LogsRes :=
  if ¬ is_logged_in adminUser sess then .redirect "/login" 303
  else
    match file with
    | none => .noEvents "(no events yet)"
    | some lines =>
      let lns := pyTail tail lines
      let events := lns.foldl (fun acc ln => acc ++ [logRec ln]) []
      .page events.reverse tail

/-! ### `admin_stats`

`hours` is the lookback window; `cutoff = datetime.now(utc) - timedelta(hours=hours)`
is modelled as `nowT - hours * 3600` on the integer UTC timeline.
`datetime.fromisoformat` is the explicit argument `fromIso`. -/

/-- Aggregation state of the loop at lines 174–201: the three counters, the
per-IP maximum timestamp (`none` standing for the `datetime.min` sentinel)
and the per-IP set of distinct sids. -/
structure SState where
  perIp : Counter
  perRoute : Counter
  clickLabels : Counter
  lastSeen : List (JVal × Option Int)
  sessions : List (JVal × List JVal)
deriving DecidableEq

def SState.init : SState :=
  { perIp := [], perRoute := [], clickLabels := [], lastSeen := [], sessions := [] }

/-- `max` over timestamps with `none` as the `datetime.min` bottom element. -/
def maxO : Option Int → Option Int → Option Int
  | none, b => b
  | some a, none => some a
  | some a, some b => some (max a b)

/-- `last_seen[ipp] = max(last_seen.get(ipp, t or MIN), t or MIN)`. -/
def dictMax (d : List (JVal × Option Int)) (k : JVal) (t : Option Int) :
    List (JVal × Option Int) :=
  let v := maxO ((d.lookup k).getD t) t
  if (d.lookup k).isSome then d.map (fun p => if p.1 = k then (p.1, v) else p)
  else d ++ [(k, v)]

/-- `sessions_per_ip[ipp].add(s)` on a `defaultdict(set)`. -/
def setAdd (d : List (JVal × List JVal)) (k v : JVal) : List (JVal × List JVal) :=
  match d.lookup k with
  | some vs =>
    if vs.contains v then d
    else d.map (fun p => if p.1 = k then (p.1, vs ++ [v]) else p)
  | none => d ++ [(k, [v])]

/-- `t` at line 186: `datetime.fromisoformat(obj.get("ts","").replace("Z","+00:00"))`
inside `try/except` — `none` when the lookup result is not a string (then
`.replace` raises) or when `fromIso` fails; a missing key defaults to `""`.
`obj.get` on a non-object raises inside this `try`, hence also `none`. -/
def tsOf (fromIso : String → Option Int) (v : JTop) : Option Int :=
  match v with
  | .obj fs =>
    match fs.lookup "ts" with
    | some (.str s) => fromIso (replaceZ s)
    | some _ => none
    | none => fromIso (replaceZ "")
  | .val _ => none

/-- Lines 191–201 of `main.py`: the per-record updates applied to a record
that survived the cutoff filter.  `t` is the already-computed timestamp. -/
def applyRecord (t : Option Int) (st : SState) (fs : JObj) : SState :=
  let k := fs.lookup "kind"
  let ipp := (fs.lookup "ip").getD (.str "-")
  let s := (fs.lookup "sid").getD (.str "-")
  let r := (fs.lookup "route").getD (.str "-")
  let st1 :=
    if k = some (.str "request") ∨ k = some (.str "response") then
      { st with perIp := st.perIp.incr ipp, perRoute := st.perRoute.incr r }
    else st
  let st2 :=
    if k = some (.str "client") ∧ fs.lookup "action" = some (.str "click") then
      { st1 with clickLabels := st1.clickLabels.incr ((fs.lookup "label").getD (.str "(unlabeled)")) }
    else st1
  { st2 with lastSeen := dictMax st2.lastSeen ipp t,
             sessions := setAdd st2.sessions ipp s }

/-- `t and t < cutoff` at line 189 (a datetime object is always truthy, so
this is `t is not None and t < cutoff`). -/
def tsBefore (t : Option Int) (cutoff : Int) : Bool :=
  match t with
  | some tv => tv < cutoff
  | none => false

/-- One loop iteration of `admin_stats` over one log line: skip unparseable
lines; skip records whose timestamp parses strictly before the cutoff
(`if t and t < cutoff: continue`); then `obj.get("kind")` raises
`AttributeError` when the parsed value is not an object (line 191 is outside
every `try`), else apply the record. -/
def statsStep (fromIso : String → Option Int) (cutoff : Int) (st : SState)
    (ln : String) : Except PyErr SState :=
  match loads ln with
  | none => .ok st
  | some v =>
    let t := tsOf fromIso v
    if tsBefore t cutoff then .ok st
    else
      match v with
      | .obj fs => .ok (applyRecord t st fs)
      | .val _ => .error .attributeError

/-- The full aggregation loop (`for ln in ...splitlines()`). -/
def statsFold (fromIso : String → Option Int) (cutoff : Int) (st : SState) :
    List String → Except PyErr SState
  | [] => .ok st
  | ln :: rest =>
    match statsStep fromIso cutoff st ln with
    | .ok st2 => statsFold fromIso cutoff st2 rest
    | .error e => .error e

/-- One row of the per-IP detail table. -/
structure IpDetail where
  ip : JVal
  sessions : Nat
  last_seen : String
deriving DecidableEq

/-- `str(last_seen.get(ip))`: `str(None)` for an IP never recorded, the
`datetime.min` rendering for the sentinel, and an abstract rendering of the
timestamp otherwise (no claim inspects its format). -/
def showLastSeen : Option (Option Int) → String
  | none => "None"
  | some none => "0001-01-01 00:00:00+00:00"
  | some (some t) => String.mk ('d' :: 't' :: ':' :: intDec t)

/-- The rendered stats page (lines 203–207). -/
structure StatsPage where
  hours : Int
  top_ips : List (JVal × Nat)
  top_routes : List (JVal × Nat)
  top_clicks : List (JVal × Nat)
  ip_details : List IpDetail
deriving DecidableEq

def renderStats (hours : Int) (st : SState) : StatsPage :=
  let tips := Counter.mostCommon 20 st.perIp
  { hours := hours
    top_ips := tips
    top_routes := Counter.mostCommon 20 st.perRoute
    top_clicks := Counter.mostCommon 20 st.clickLabels
    ip_details := tips.map (fun p =>
      { ip := p.1
        sessions := ((st.sessions.lookup p.1).getD []).length
        last_seen := showLastSeen (st.lastSeen.lookup p.1) }) }

/-- Result of `admin_stats`. -/
inductive StatsRes where
  | redirect (loc : String) (code : Nat)
  | page (out : StatsPage)
deriving DecidableEq

/-- `GET /_admin/stats?hours=H` (lines 169–207): the authentication check
comes before any read of the log; then the full-file aggregation pass and
the top-20 rankings.  The log file exists (it is touched at startup), so the
input is the list of its lines. -/
def admin_stats (fromIso : String → Option Int) (adminUser : String) (sess : Session)
    (hours : Int) (nowT : Int) (lines : List String) : Except PyErr StatsRes :=
  if ¬ is_logged_in adminUser sess then .ok (.redirect "/login" 303)
  else
    let cutoff := nowT - hours * 3600
    match statsFold fromIso cutoff SState.init lines with
    | .ok st => .ok (.page (renderStats hours st))
    | .error e => .error e

/-! ### `export_csv` -/

/-- The fixed column set of the export (line 218). -/
def COLS : List String :=
  ["ts", "kind", "ip", "sid", "route", "method", "status", "action", "label",
   "ua", "accept_language", "referrer", "is_honey"]

/-- The header row `",".join(cols)`. -/
def headerRow : String := String.intercalate "," COLS

/-- The cells of one export row: `str(obj.get(c, ""))` with commas replaced
by semicolons, for each column. -/
def rowCells (fs : JObj) : List String :=
  COLS.map (fun c => replaceComma (pyStr ((fs.lookup c).getD (.str ""))))

/-- One export row, `",".join(row)`. -/
def rowOf (fs : JObj) : String := String.intercalate "," (rowCells fs)

/-- One iteration of the export loop (lines 220–226): skip an unparseable
line, raise `AttributeError` on a parseable non-object line (`obj.get` at
line 225 is outside the `try`), else emit a row. -/
def exportStep (ln : String) : Except PyErr (Option String) :=
  match loads ln with
  | none => .ok none
  | some (.obj fs) => .ok (some (rowOf fs))
  | some (.val _) => .error .attributeError

/-- The export loop accumulating rows in file order. -/
def exportRows : List String → Except PyErr (List String)
  | [] => .ok []
  | ln :: rest =>
    match exportStep ln with
    | .ok none => exportRows rest
    | .ok (some row) =>
      match exportRows rest with
      | .ok rows => .ok (row :: rows)
      | .error e => .error e
    | .error e => .error e

/-- Result of `export_csv`: a redirect, or a body with its media type and
optional `Content-Disposition` header. -/
inductive CsvRes where
  | redirect (loc : String) (code : Nat)
  | csv (body : String) (mediaType : String) (attachment : Bool)
deriving DecidableEq

/-- `GET /_admin/export?limit=N` (lines 210–229): the authentication check
comes before any read of the log; an absent log file yields an empty
`text/csv` body with no attachment header; otherwise the last `limit` lines
(Python slice `[-int(limit):]`) are rendered as header plus one row per
parseable line. -/
def export_csv (adminUser : String) (sess : Session) (limit : Int)
    (file : Option (List String)) : Except PyErr CsvRes :=
  if ¬ is_logged_in adminUser sess then .ok (.redirect "/login" 303)
  else
    match file with
    | none => .ok (.csv "" "text/csv" false)
    | some lines =>
      let lns := pyTail limit lines
      match exportRows lns with
      | .ok rows => .ok (.csv (String.intercalate (String.mk ['\n']) (headerRow :: rows)) "text/csv" true)
      | .error e => .error e

/-! ## Round-trip lemmas for the JSON layer -/

/-- The digit-accumulation step of `parseDigits`. -/
def dstep (a : Nat) (c : Char) : Nat := a * 10 + (c.toNat - '0'.toNat)

theorem digitChar_isDigit {n : Nat} (h : n < 10) : (Nat.digitChar n).isDigit = true := by
  interval_cases n <;> decide

theorem digitChar_val {n : Nat} (h : n < 10) : (Nat.digitChar n).toNat - '0'.toNat = n := by
  interval_cases n <;> decide

theorem hexNat_digitChar {n : Nat} (h : n < 16) : hexNat (Nat.digitChar n) = some n := by
  interval_cases n <;> decide

theorem isDigit_toNat_bounds {c : Char} (h : c.isDigit = true) :
    48 ≤ c.toNat ∧ c.toNat ≤ 57 := by
  simp only [Char.isDigit, decide_eq_true_eq, Bool.and_eq_true] at h
  obtain ⟨h1, h2⟩ := h
  exact ⟨h1, h2⟩

theorem isDigit_ne {c d : Char} (h : c.isDigit = true) (hd : d.isDigit = false) : c ≠ d := by
  intro rfl_eq
  subst rfl_eq
  rw [h] at hd
  exact absurd hd (by decide)

theorem natDecAux_digits :
    ∀ fuel n, n < fuel → ∀ c ∈ natDecAux fuel n, c.isDigit = true := by
  intro fuel
  induction fuel with
  | zero => intro n h; omega
  | succ f ih =>
    intro n h c hc
    by_cases h10 : n < 10
    · simp only [natDecAux, if_pos h10, List.mem_singleton] at hc
      subst hc
      exact digitChar_isDigit h10
    · simp only [natDecAux, if_neg h10, List.mem_append, List.mem_singleton] at hc
      have hdiv : n / 10 < n := Nat.div_lt_self (by omega) (by omega)
      rcases hc with hc | hc
      · exact ih (n / 10) (by omega) c hc
      · subst hc
        exact digitChar_isDigit (Nat.mod_lt n (by omega))

theorem natDecAux_ne_nil : ∀ fuel n, n < fuel → natDecAux fuel n ≠ [] := by
  intro fuel
  cases fuel with
  | zero => intro n h; omega
  | succ f =>
    intro n _ hcon
    by_cases h10 : n < 10
    · simp [natDecAux, if_pos h10] at hcon
    · simp [natDecAux, if_neg h10] at hcon

theorem natDecAux_val :
    ∀ fuel n, n < fuel → (natDecAux fuel n).foldl dstep 0 = n := by
  intro fuel
  induction fuel with
  | zero => intro n h; omega
  | succ f ih =>
    intro n h
    by_cases h10 : n < 10
    · simp only [natDecAux, if_pos h10, List.foldl_cons, List.foldl_nil, dstep]
      rw [digitChar_val h10]
      omega
    · have hdiv : n / 10 < n := Nat.div_lt_self (by omega) (by omega)
      simp only [natDecAux, if_neg h10, List.foldl_append, List.foldl_cons, List.foldl_nil]
      rw [ih (n / 10) (by omega)]
      simp only [dstep]
      rw [digitChar_val (Nat.mod_lt n (by omega))]
      omega

theorem natDec_digits {n : Nat} : ∀ c ∈ natDec n, c.isDigit = true :=
  natDecAux_digits (n + 1) n (Nat.lt_succ_self n)

theorem natDec_ne_nil {n : Nat} : natDec n ≠ [] :=
  natDecAux_ne_nil (n + 1) n (Nat.lt_succ_self n)

theorem natDec_val {n : Nat} : (natDec n).foldl dstep 0 = n :=
  natDecAux_val (n + 1) n (Nat.lt_succ_self n)

/-- `natDec` is injective: decimal renderings of distinct numbers differ. -/
theorem natDec_inj {m n : Nat} (h : natDec m = natDec n) : m = n := by
  have hm := natDec_val (n := m)
  rw [h, natDec_val] at hm
  exact hm.symm

/-- Head-of-rest side condition: the remaining input does not begin with a
decimal digit (so a digit run ends exactly there). -/
def noDigitHead (rest : List Char) : Prop :=
  ∀ c, rest.head? = some c → c.isDigit = false

theorem noDigitHead_nil : noDigitHead [] := by
  intro c h
  simp at h

theorem noDigitHead_cons {c : Char} {cs : List Char} (h : c.isDigit = false) :
    noDigitHead (c :: cs) := by
  intro d hd
  simp only [List.head?] at hd
  injection hd with hd
  subst hd
  exact h

theorem parseDigits_stop {rest : List Char} (h : noDigitHead rest) (acc : Nat) :
    parseDigits rest acc = (acc, rest) := by
  cases rest with
  | nil => rfl
  | cons c cs =>
    have hc : c.isDigit = false := h c rfl
    simp [parseDigits, hc]

theorem parseDigits_run :
    ∀ (ds rest : List Char) (acc : Nat), (∀ c ∈ ds, c.isDigit = true) → noDigitHead rest →
      parseDigits (ds ++ rest) acc = (ds.foldl dstep acc, rest) := by
  intro ds
  induction ds with
  | nil =>
    intro rest acc _ hrest
    simpa using parseDigits_stop hrest acc
  | cons d ds ih =>
    intro rest acc hds hrest
    have hd : d.isDigit = true := hds d (List.mem_cons_self d ds)
    simp only [List.cons_append, parseDigits, hd, if_pos, List.foldl_cons]
    exact ih rest (dstep acc d) (fun c hc => hds c (List.mem_cons_of_mem d hc)) hrest

theorem parseDigits_natDec {n : Nat} {rest : List Char} (h : noDigitHead rest) :
    parseDigits (natDec n ++ rest) 0 = (n, rest) := by
  rw [parseDigits_run (natDec n) rest 0 natDec_digits h, natDec_val]

/-- Decoding inverts escaping: the string-body production parses an escaped
character run followed by the closing quote back to the original run. -/
theorem parseStrBody_escList :
    ∀ (cs rest : List Char), parseStrBody (escList cs ++ '"' :: rest) = some (cs, rest) := by
  intro cs
  induction cs with
  | nil =>
    intro rest
    rw [show escList [] ++ '"' :: rest = '"' :: rest from rfl, parseStrBody.eq_def]
    simp
  | cons c cs ih =>
    intro rest
    rw [show escList (c :: cs) = escChar c ++ escList cs from rfl, List.append_assoc]
    by_cases h1 : c = '"'
    · subst h1
      rw [show escChar '"' ++ (escList cs ++ '"' :: rest)
            = '\\' :: '"' :: (escList cs ++ '"' :: rest) from rfl, parseStrBody.eq_def]
      simp [ih]
    · by_cases h2 : c = '\\'
      · subst h2
        rw [show escChar '\\' ++ (escList cs ++ '"' :: rest)
              = '\\' :: '\\' :: (escList cs ++ '"' :: rest) from rfl, parseStrBody.eq_def]
        simp [ih]
      · by_cases h3 : c = '\n'
        · subst h3
          rw [show escChar '\n' ++ (escList cs ++ '"' :: rest)
                = '\\' :: 'n' :: (escList cs ++ '"' :: rest) from rfl, parseStrBody.eq_def]
          simp [ih]
        · by_cases h4 : c = '\t'
          · subst h4
            rw [show escChar '\t' ++ (escList cs ++ '"' :: rest)
                  = '\\' :: 't' :: (escList cs ++ '"' :: rest) from rfl, parseStrBody.eq_def]
            simp [ih]
          · by_cases h5 : c = '\r'
            · subst h5
              rw [show escChar '\r' ++ (escList cs ++ '"' :: rest)
                    = '\\' :: 'r' :: (escList cs ++ '"' :: rest) from rfl, parseStrBody.eq_def]
              simp [ih]
            · by_cases h6 : c = '\x08'
              · subst h6
                rw [show escChar '\x08' ++ (escList cs ++ '"' :: rest)
                      = '\\' :: 'b' :: (escList cs ++ '"' :: rest) from rfl, parseStrBody.eq_def]
                simp [ih]
              · by_cases h7 : c = '\x0c'
                · subst h7
                  rw [show escChar '\x0c' ++ (escList cs ++ '"' :: rest)
                        = '\\' :: 'f' :: (escList cs ++ '"' :: rest) from rfl,
                     parseStrBody.eq_def]
                  simp [ih]
                · by_cases h8 : c.toNat < 32
                  · have hdiv : c.toNat / 16 < 16 := by omega
                    have hmod : c.toNat % 16 < 16 := by omega
                    have hesc2 : escChar c ++ (escList cs ++ '"' :: rest)
                        = '\\' :: 'u' :: '0' :: '0' :: Nat.digitChar (c.toNat / 16)
                          :: Nat.digitChar (c.toNat % 16) :: (escList cs ++ '"' :: rest) := by
                      simp only [escChar, if_neg h1, if_neg h2, if_neg h3, if_neg h4,
                        if_neg h5, if_neg h6, if_neg h7, if_pos h8]
                      rfl
                    rw [hesc2, parseStrBody.eq_def]
                    simp [hexNat_digitChar hdiv, hexNat_digitChar hmod, ih,
                      show hexNat '0' = some 0 from by decide]
                    rw [show c.toNat / 16 * 16 + c.toNat % 16 = c.toNat by omega,
                        Char.ofNat_toNat]
                  · have hesc2 : escChar c ++ (escList cs ++ '"' :: rest)
                        = c :: (escList cs ++ '"' :: rest) := by
                      simp only [escChar, if_neg h1, if_neg h2, if_neg h3, if_neg h4,
                        if_neg h5, if_neg h6, if_neg h7, if_neg h8]
                      rfl
                    rw [hesc2, parseStrBody.eq_def]
                    simp [if_neg h1, if_neg h2, if_neg h8, ih]

theorem string_mk_toList (s : String) : String.mk s.toList = s := rfl

theorem skipWs_nil : skipWs [] = [] := rfl

theorem skipWs_not_ws {c : Char} (h : isWs c = false) (cs : List Char) :
    skipWs (c :: cs) = c :: cs := by
  simp [skipWs, List.dropWhile_cons, h]

theorem skipWs_ws {c : Char} (h : isWs c = true) (cs : List Char) :
    skipWs (c :: cs) = skipWs cs := by
  simp [skipWs, List.dropWhile_cons, h]

theorem isDigit_not_ws {c : Char} (h : c.isDigit = true) : isWs c = false := by
  have w1 : c ≠ ' ' := isDigit_ne h (by decide)
  have w2 : c ≠ '\t' := isDigit_ne h (by decide)
  have w3 : c ≠ '\n' := isDigit_ne h (by decide)
  have w4 : c ≠ '\r' := isDigit_ne h (by decide)
  simp [isWs, w1, w2, w3, w4]

/-- `parseVal` inverts `encVal`, provided the remaining input does not start
with a digit (so that an integer literal ends where it should). -/
theorem parseVal_encVal (v : JVal) (rest : List Char) (hrest : noDigitHead rest) :
    parseVal (encVal v ++ rest) = some (v, rest) := by
  cases v with
  | str s =>
    rw [show encVal (.str s) ++ rest = '"' :: (escList s.toList ++ '"' :: rest) by
          simp [encVal, encStr], parseVal.eq_def]
    simp [parseStrBody_escList, string_mk_toList]
  | int n =>
    by_cases hneg : n < 0
    · rw [show encVal (.int n) ++ rest = '-' :: (natDec n.natAbs ++ rest) by
            simp [encVal, intDec, if_pos hneg]]
      obtain ⟨d, ds, hds⟩ : ∃ d ds, natDec n.natAbs = d :: ds := by
        cases hnd : natDec n.natAbs with
        | nil => exact absurd hnd natDec_ne_nil
        | cons d ds => exact ⟨d, ds, rfl⟩
      have hd : d.isDigit = true := natDec_digits d (by rw [hds]; exact List.mem_cons_self d ds)
      rw [hds, List.cons_append, parseVal.eq_def]
      simp only []
      simp [hd]
      rw [show d :: (ds ++ rest) = natDec n.natAbs ++ rest by rw [hds]; rfl,
          parseDigits_natDec hrest]
      have hcast : -(n.natAbs : Int) = n := by omega
      simp [hcast]
      rw [abs_of_neg hneg, neg_neg]
    · rw [show encVal (.int n) ++ rest = natDec n.toNat ++ rest by
            simp [encVal, intDec, if_neg hneg]]
      obtain ⟨d, ds, hds⟩ : ∃ d ds, natDec n.toNat = d :: ds := by
        cases hnd : natDec n.toNat with
        | nil => exact absurd hnd natDec_ne_nil
        | cons d ds => exact ⟨d, ds, rfl⟩
      have hd : d.isDigit = true := natDec_digits d (by rw [hds]; exact List.mem_cons_self d ds)
      have hdq : d ≠ '"' := isDigit_ne hd (by decide)
      have hdm : d ≠ '-' := isDigit_ne hd (by decide)
      rw [hds, List.cons_append, parseVal.eq_def]
      simp [hd, hdq, hdm]
      rw [show d :: (ds ++ rest) = natDec n.toNat ++ rest by rw [hds]; rfl,
          parseDigits_natDec hrest]
      have hcast : (n.toNat : Int) = n := by omega
      simp [hcast]
  | bool b =>
    cases b with
    | true =>
      rw [show encVal (.bool true) ++ rest = 't' :: 'r' :: 'u' :: 'e' :: rest from rfl,
          parseVal.eq_def]
      simp
    | false =>
      rw [show encVal (.bool false) ++ rest = 'f' :: 'a' :: 'l' :: 's' :: 'e' :: rest from rfl,
          parseVal.eq_def]
      simp
  | null =>
    rw [show encVal .null ++ rest = 'n' :: 'u' :: 'l' :: 'l' :: rest from rfl,
        parseVal.eq_def]
    simp

theorem skipWs_encVal (v : JVal) (rest : List Char) :
    skipWs (encVal v ++ rest) = encVal v ++ rest := by
  cases v with
  | str s =>
    rw [show encVal (.str s) ++ rest = '"' :: (escList s.toList ++ '"' :: rest) by
          simp [encVal, encStr]]
    exact skipWs_not_ws (by decide) _
  | int n =>
    by_cases hneg : n < 0
    · rw [show encVal (.int n) ++ rest = '-' :: (natDec n.natAbs ++ rest) by
            simp [encVal, intDec, if_pos hneg]]
      exact skipWs_not_ws (by decide) _
    · rw [show encVal (.int n) ++ rest = natDec n.toNat ++ rest by
            simp [encVal, intDec, if_neg hneg]]
      obtain ⟨d, ds, hds⟩ : ∃ d ds, natDec n.toNat = d :: ds := by
        cases hnd : natDec n.toNat with
        | nil => exact absurd hnd natDec_ne_nil
        | cons d ds => exact ⟨d, ds, rfl⟩
      have hd : d.isDigit = true := natDec_digits d (by rw [hds]; exact List.mem_cons_self d ds)
      rw [hds, List.cons_append]
      exact skipWs_not_ws (isDigit_not_ws hd) _
  | bool b =>
    cases b with
    | true => exact skipWs_not_ws (by decide) _
    | false => exact skipWs_not_ws (by decide) _
  | null => exact skipWs_not_ws (by decide) _

/-- `parseMembers` inverts `encItems` for a nonempty object, given enough
fuel. -/
theorem parseMembers_encItems :
    ∀ (o : JObj) (tail : List Char) (fuel : Nat), o ≠ [] → o.length ≤ fuel →
      parseMembers fuel (encItems o ++ '}' :: tail) = some (o, tail) := by
  intro o
  induction o with
  | nil => intro tail fuel h _; exact absurd rfl h
  | cons kv o' ih =>
    intro tail fuel _ hlen
    obtain ⟨k, v⟩ := kv
    obtain ⟨f, rfl⟩ : ∃ f, fuel = f + 1 := by
      cases fuel with
      | zero => simp at hlen
      | succ f => exact ⟨f, rfl⟩
    cases o' with
    | nil =>
      have hshape : encItems [(k, v)] ++ '}' :: tail
          = '"' :: (escList k.toList ++ '"' :: (':' :: ' ' :: (encVal v ++ '}' :: tail))) := by
        simp [encItems, encStr]
      rw [hshape, parseMembers.eq_2]
      rw [skipWs_not_ws (by decide) _]
      simp only [parseStrBody_escList]
      rw [skipWs_not_ws (by decide) _]
      simp only []
      rw [skipWs_ws (by decide) _, skipWs_encVal,
          parseVal_encVal v ('}' :: tail) (noDigitHead_cons (by decide))]
      simp only []
      rw [skipWs_not_ws (by decide) _]
      simp [string_mk_toList]
    | cons kv2 o'' =>
      have hshape : encItems ((k, v) :: kv2 :: o'') ++ '}' :: tail
          = '"' :: (escList k.toList ++ '"' :: (':' :: ' ' :: (encVal v
              ++ ',' :: ' ' :: (encItems (kv2 :: o'') ++ '}' :: tail)))) := by
        simp [encItems, encStr]
      rw [hshape, parseMembers.eq_2]
      rw [skipWs_not_ws (by decide) _]
      simp only [parseStrBody_escList]
      rw [skipWs_not_ws (by decide) _]
      simp only []
      rw [skipWs_ws (by decide) _, skipWs_encVal,
          parseVal_encVal v (',' :: ' ' :: (encItems (kv2 :: o'') ++ '}' :: tail))
            (noDigitHead_cons (by decide))]
      simp only []
      rw [skipWs_not_ws (by decide) _]
      simp only []
      obtain ⟨f2, rfl⟩ : ∃ f2, f = f2 + 1 := by
        simp only [List.length_cons] at hlen
        cases f with
        | zero => omega
        | succ f2 => exact ⟨f2, rfl⟩
      have hrec : parseMembers (f2 + 1) (' ' :: (encItems (kv2 :: o'') ++ '}' :: tail))
          = parseMembers (f2 + 1) (encItems (kv2 :: o'') ++ '}' :: tail) := by
        rw [parseMembers.eq_2]
        conv_rhs => rw [parseMembers.eq_2]
        rw [skipWs_ws (by decide) _]
      rw [hrec, ih tail (f2 + 1) (by simp) (by simp only [List.length_cons] at hlen ⊢; omega)]
      simp [string_mk_toList]

/-- Each member contributes at least one character to `encItems`, so the
character count is enough fuel for `parseMembers`. -/
theorem length_le_encItems : ∀ (p : JObj), p.length ≤ (encItems p).length := by
  intro p
  induction p with
  | nil => simp [encItems]
  | cons q p' ihp =>
    obtain ⟨k2, v2⟩ := q
    cases p' with
    | nil => simp [encItems, encStr]
    | cons r p'' =>
      simp only [encItems, List.length_append, List.length_cons] at ihp ⊢
      have h1 : 1 ≤ (encStr k2).length := by simp [encStr]
      omega

theorem parseObjTail_encItems (o : JObj) (ho : o ≠ []) :
    parseObjTail (encItems o ++ ['}']) = some (.obj o, []) := by
  cases o with
  | nil => exact absurd rfl ho
  | cons kv o' =>
    obtain ⟨k, v⟩ := kv
    obtain ⟨t, ht⟩ : ∃ t, encItems ((k, v) :: o') = '"' :: t := by
      cases o' with
      | nil =>
        exact ⟨escList k.toList ++ '"' :: ':' :: ' ' :: encVal v, by simp [encItems, encStr]⟩
      | cons kv2 o'' =>
        exact ⟨escList k.toList ++ '"' :: ':' :: ' '
                :: (encVal v ++ ',' :: ' ' :: encItems (kv2 :: o'')),
              by simp [encItems, encStr]⟩
    rw [parseObjTail.eq_def, ht, List.cons_append]
    rw [skipWs_not_ws (by decide) _]
    simp only []
    rw [if_neg (by decide : ¬ ('"' : Char) = '}')]
    rw [show ('"' : Char) :: (t ++ ['}']) = encItems ((k, v) :: o') ++ ['}'] by
          rw [ht]; rfl]
    rw [show (['}'] : List Char) = '}' :: [] from rfl]
    rw [parseMembers_encItems ((k, v) :: o') [] (encItems ((k, v) :: o') ++ '}' :: []).length
          (by simp) ?hfuel]
    case hfuel =>
      have h3 := length_le_encItems ((k, v) :: o')
      simp only [List.length_append, List.length_cons] at h3 ⊢
      omega

/-- The dumped form of an event object parses back to exactly that object. -/
theorem loads_dumps (o : JObj) : loads (dumps o) = some (.obj o) := by
  cases o with
  | nil => decide
  | cons kv o' =>
    have htl : (dumps (kv :: o')).toList
        = '{' :: (encItems (kv :: o') ++ ['}']) := rfl
    rw [loads, htl, parseTop.eq_def]
    rw [skipWs_not_ws (by decide) _]
    simp only []
    simp only [if_true]
    rw [parseObjTail_encItems (kv :: o') (by simp)]
    simp [skipWs_nil]

/-! ### The dumped line is a single line -/

theorem digitChar_ne_newline {m : Nat} (h : m < 16) : Nat.digitChar m ≠ '\n' := by
  interval_cases m <;> decide

theorem newline_not_mem_escChar (c : Char) : '\n' ∉ escChar c := by
  unfold escChar
  split_ifs with h1 h2 h3 h4 h5 h6 h7 h8
  · decide
  · decide
  · decide
  · decide
  · decide
  · decide
  · decide
  · intro hmem
    have hdiv : c.toNat / 16 < 16 := by omega
    have hmod : c.toNat % 16 < 16 := by omega
    simp only [List.mem_cons, List.mem_singleton] at hmem
    rcases hmem with h | h | h | h | h | h
    · exact absurd h (by decide)
    · exact absurd h (by decide)
    · exact absurd h (by decide)
    · exact absurd h (by decide)
    · exact digitChar_ne_newline hdiv h.symm
    · simp at h
      exact digitChar_ne_newline hmod h.symm
  · intro hmem
    simp only [List.mem_singleton] at hmem
    subst hmem
    exact h8 (by decide)

theorem newline_not_mem_escList (cs : List Char) : '\n' ∉ escList cs := by
  induction cs with
  | nil => simp [escList]
  | cons c cs ih =>
    rw [show escList (c :: cs) = escChar c ++ escList cs from rfl]
    simp only [List.mem_append]
    rintro (h | h)
    · exact newline_not_mem_escChar c h
    · exact ih h

theorem newline_not_mem_encStr (s : String) : '\n' ∉ encStr s := by
  intro h
  rw [show encStr s = ['"'] ++ escList s.toList ++ ['"'] from rfl] at h
  simp only [List.mem_append] at h
  rcases h with (h | h) | h
  · exact absurd h (by decide)
  · exact newline_not_mem_escList _ h
  · exact absurd h (by decide)

theorem newline_not_mem_natDec (n : Nat) : '\n' ∉ natDec n := by
  intro h
  have := natDec_digits _ h
  exact absurd this (by decide)

theorem newline_not_mem_encVal (v : JVal) : '\n' ∉ encVal v := by
  cases v with
  | str s => exact newline_not_mem_encStr s
  | int n =>
    simp only [encVal, intDec]
    split_ifs
    · simp only [List.mem_cons]
      rintro (h | h)
      · exact absurd h (by decide)
      · exact newline_not_mem_natDec _ h
    · exact newline_not_mem_natDec _
  | bool b => cases b <;> decide
  | null => decide

theorem newline_not_mem_encItems (o : JObj) : '\n' ∉ encItems o := by
  induction o with
  | nil => simp [encItems]
  | cons kv o' ih =>
    obtain ⟨k, v⟩ := kv
    cases o' with
    | nil =>
      intro h
      rw [show encItems [(k, v)] = encStr k ++ ([':', ' '] ++ encVal v) from rfl] at h
      simp only [List.mem_append] at h
      rcases h with h | h | h
      · exact newline_not_mem_encStr k h
      · exact absurd h (by decide)
      · exact newline_not_mem_encVal v h
    | cons kv2 o'' =>
      intro h
      have he : encItems ((k, v) :: kv2 :: o'')
          = encStr k ++ ([':', ' '] ++ (encVal v ++ ([',', ' '] ++ encItems (kv2 :: o'')))) := by
        simp [encItems]
      rw [he] at h
      simp only [List.mem_append] at h
      rcases h with h | h | h | h | h
      · exact newline_not_mem_encStr k h
      · exact absurd h (by decide)
      · exact newline_not_mem_encVal v h
      · exact absurd h (by decide)
      · exact ih h

/-- A dumped event object contains no newline character: the event-log file
write `dumps(obj) + "\n"` is one self-contained line. -/
theorem newline_not_mem_dumps (o : JObj) : '\n' ∉ (dumps o).toList := by
  rw [show (dumps o).toList = '{' :: (encItems o ++ ['}']) from rfl]
  simp only [List.mem_cons, List.mem_append, List.mem_singleton]
  rintro (h | h | h)
  · exact absurd h (by decide)
  · exact newline_not_mem_encItems o h
  · exact absurd h (by decide)

theorem contains_eq_false_of_not_mem {α : Type} [DecidableEq α] {l : List α} {a : α}
    (h : a ∉ l) : l.contains a = false := by
  cases hc : l.contains a with
  | false => rfl
  | true =>
    obtain ⟨b, hb, hab⟩ := List.contains_iff_exists_mem_beq.mp hc
    exact absurd (eq_of_beq hab ▸ hb) h

/-- C9: every event object appended via the log store's append operation is
written as a single self-contained JSON object terminated by a newline, and
parsing that line back yields the original `kind`, `sid`, `ip` and `route`
values unchanged (append-then-parse round trip). -/
theorem claim_C9_append_roundtrip (o : JObj) :
    (log_line o).toList = (dumps o).toList ++ ['\n'] ∧
    (dumps o).toList.contains '\n' = false ∧
    loads (dumps o) = some (.obj o) ∧
    (match loads (dumps o) with
     | some (.obj fs) => (fs.lookup "kind", fs.lookup "sid", fs.lookup "ip", fs.lookup "route")
     | _ => (none, none, none, none))
      = (o.lookup "kind", o.lookup "sid", o.lookup "ip", o.lookup "route") := by
  refine ⟨?_, ?_, loads_dumps o, ?_⟩
  · show (dumps o ++ String.mk ['\n']).data = (dumps o).data ++ ['\n']
    rw [String.data_append]
  · exact contains_eq_false_of_not_mem (newline_not_mem_dumps o)
  · rw [loads_dumps o]

/-! ## Admin endpoint claims -/

/-- C7: every `/_admin/*` endpoint (logs, stats, export) invoked without a
prior successful login returns a redirect to `/login` (303) and performs no
read of the event log: the result is a constant independent of the log
contents (the stated equality holds for every log input). -/
theorem claim_C7_admin_auth_gate (adminUser : String) (sess : Session)
    (h : is_logged_in adminUser sess = false) :
    (∀ (tail : Int) (f : Option (List String)),
       admin_logs adminUser sess tail f = .redirect "/login" 303) ∧
    (∀ (fromIso : String → Option Int) (hours nowT : Int) (lines : List String),
       admin_stats fromIso adminUser sess hours nowT lines = .ok (.redirect "/login" 303)) ∧
    (∀ (limit : Int) (f : Option (List String)),
       export_csv adminUser sess limit f = .ok (.redirect "/login" 303)) := by
  refine ⟨fun tail f => ?_, fun fromIso hours nowT lines => ?_, fun limit f => ?_⟩
  · simp [admin_logs, h]
  · simp [admin_stats, h]
  · simp [export_csv, h]

theorem claim_C7_admin_auth_gate_witness :
    admin_logs "admin" [] 200 (some ["x"]) = .redirect "/login" 303 ∧
    admin_logs "admin" [] 200 none = .redirect "/login" 303 ∧
    admin_stats (fun _ => none) "admin" [] 168 0 ["x"] = .ok (.redirect "/login" 303) ∧
    export_csv "admin" [] 10000 (some ["x"]) = .ok (.redirect "/login" 303) := by
  have h := claim_C7_admin_auth_gate "admin" [] (by decide)
  exact ⟨h.1 200 (some ["x"]), h.1 200 none, h.2.1 (fun _ => none) 168 0 ["x"],
         h.2.2 10000 (some ["x"])⟩

theorem foldl_append_singleton {α β : Type} (f : α → β) :
    ∀ (l : List α) (acc : List β), l.foldl (fun a x => a ++ [f x]) acc = acc ++ l.map f := by
  intro l
  induction l with
  | nil => intro acc; simp
  | cons x l ih =>
    intro acc
    simp only [List.foldl_cons, List.map_cons]
    rw [ih]
    simp

/-- C10: the admin raw-log view over the last `tail` lines does not drop
unparseable lines — each such line appears as a `{"raw": line}` record — and
the rendered event list is the reverse (newest first) of the per-line
records in file order. -/
theorem claim_C10_raw_lines_kept (adminUser : String) (sess : Session) (tail : Int)
    (lines : List String) (h : is_logged_in adminUser sess = true) :
    admin_logs adminUser sess tail (some lines)
      = .page (((pyTail tail lines).map logRec).reverse) tail ∧
    ∀ ln ∈ pyTail tail lines, loads ln = none →
      JTop.obj [("raw", .str ln)] ∈ ((pyTail tail lines).map logRec).reverse := by
  constructor
  · simp only [admin_logs, h]
    rw [foldl_append_singleton logRec (pyTail tail lines) []]
    simp
  · intro ln hmem hfail
    rw [List.mem_reverse]
    have : logRec ln = JTop.obj [("raw", .str ln)] := by
      simp [logRec, hfail]
    exact this ▸ List.mem_map_of_mem logRec hmem

theorem claim_C10_raw_lines_kept_witness :
    admin_logs "admin" [("user", "admin")] 200 (some ["notjson"])
      = .page [JTop.obj [("raw", .str "notjson")]] 200 ∧
    JTop.obj [("raw", .str "notjson")] ∈ ((pyTail 200 ["notjson"]).map logRec).reverse := by
  have h := claim_C10_raw_lines_kept "admin" [("user", "admin")] 200 ["notjson"] (by decide)
  refine ⟨?_, h.2 "notjson" (by decide) (by decide)⟩
  rw [h.1]
  decide

/-! ## Capture middleware claims -/

theorem contains_eq_true_of_mem {α : Type} [DecidableEq α] {l : List α} {a : α}
    (h : a ∈ l) : l.contains a = true := by
  cases hc : l.contains a with
  | true => rfl
  | false =>
    rw [List.contains_eq_any_beq] at hc
    have := List.any_eq_false.mp hc a h
    simp at this

theorem not_mem_of_contains_eq_false {α : Type} [DecidableEq α] {l : List α} {a : α}
    (h : l.contains a = false) : a ∉ l := by
  intro hmem
  rw [contains_eq_true_of_mem hmem] at h
  exact absurd h (by decide)

/-- `sid_from_req` never touches the log or the clock. -/
theorem sid_from_req_log (req : Req) (w : World) :
    (sid_from_req req w).2.log = w.log ∧ (sid_from_req req w).2.clock = w.clock := by
  constructor
  · rw [sid_from_req.eq_def]
    cases hc : req.cookies.lookup "hp_sid" with
    | none => rfl
    | some v => by_cases hv : v = "" <;> simp [hv, World.fresh]
  · rw [sid_from_req.eq_def]
    cases hc : req.cookies.lookup "hp_sid" with
    | none => rfl
    | some v => by_cases hv : v = "" <;> simp [hv, World.fresh]

/-- The world seen by the wrapped handler: the `request` event has been
appended, nothing else. -/
theorem loggerPre_log (req : Req) (w : World) :
    (loggerPre req w).2.log
      = w.log ++ [request_event (now_iso (sid_from_req req w).2.clock) (sid_from_req req w).1
          (ip_from_req req) req.path req.method] := by
  unfold loggerPre World.tick log_event
  simp [(sid_from_req_log req w).1, (sid_from_req_log req w).2]

theorem loggerPre_sid (req : Req) (w : World) :
    (loggerPre req w).1 = (sid_from_req req w).1 := rfl

/-- `logger` on a handler that returns a response: the response event is
appended after the handler's own writes and the session cookie is stamped
exactly when the inbound request carried none. -/
theorem logger_ok (handler : Handler) (req : Req) (w : World) (res : Resp) (w4 : World)
    (hh : handler req (loggerPre req w).2 = (.ok res, w4)) :
    logger handler req w =
      (.ok (if (req.cookies.lookup "hp_sid").isNone
            then { res with setCookies := res.setCookies ++ [("hp_sid", (loggerPre req w).1)] }
            else res),
       log_event w4.tick.2 (response_event w4.tick.1 (loggerPre req w).1 (ip_from_req req)
         req.path res.status (HONEY_ROUTES.contains req.path))) := by
  simp only [logger]
  rw [hh]

/-- `logger` on a handler that raises: the exception propagates and no
response event is appended. -/
theorem logger_err (handler : Handler) (req : Req) (w : World) (e : PyErr) (w4 : World)
    (hh : handler req (loggerPre req w).2 = (.error e, w4)) :
    logger handler req w = (.error e, w4) := by
  simp only [logger]
  rw [hh]

/-- Number of events of a given kind in a log. -/
def countKind (k : String) (l : List JObj) : Nat :=
  (l.filter (fun o => o.lookup "kind" = some (.str k))).length

theorem request_event_kind (ts s ip route method : String) :
    (request_event ts s ip route method).lookup "kind" = some (.str "request") := rfl

theorem response_event_kind (ts s ip route : String) (st : Nat) (h : Bool) :
    (response_event ts s ip route st h).lookup "kind" = some (.str "response") := rfl

theorem profile_view_event_kind (ts name ip s : String) :
    (profile_view_event ts name ip s).lookup "kind" = some (.str "profile_view") := rfl

theorem client_event_kind (ts s ip action label : String) :
    (client_event ts s ip action label).lookup "kind" = some (.str "client") := rfl

theorem request_event_sid (ts s ip route method : String) :
    (request_event ts s ip route method).lookup "sid" = some (.str s) := rfl

theorem response_event_sid (ts s ip route : String) (st : Nat) (h : Bool) :
    (response_event ts s ip route st h).lookup "sid" = some (.str s) := rfl

theorem profile_view_event_sid (ts name ip s : String) :
    (profile_view_event ts name ip s).lookup "sid" = some (.str s) := rfl

theorem client_event_sid (ts s ip action label : String) :
    (client_event ts s ip action label).lookup "sid" = some (.str s) := rfl

theorem countKind_append (k : String) (l1 l2 : List JObj) :
    countKind k (l1 ++ l2) = countKind k l1 + countKind k l2 := by
  simp [countKind, List.filter_append]

/-- Concrete fixtures for witnesses and counterexamples. -/
def env0 : NotifEnv := { token := "", chat := "", sendOk := true }

def req0 : Req :=
  { cookies := [], xForwardedFor := "", clientHost := some "9.9.9.9",
    path := "/Jack", method := "GET" }

def w0 : World := { log := [], nextUuid := 0, clock := 0 }

/-- C3, counterexample to the claim as stated.  The client-event ingest
handler invoked with a well-formed non-object JSON body raises
`AttributeError`; the capture middleware then propagates the exception and
the final log contains a `request` event but NO `response` event, contrary
to the claim that a response event is appended "including when the wrapped
handler fails or raises". -/
theorem claim_C3_counterexample :
    (logger (track_event env0 (some (.val (.int 7)))) req0 w0).1
      = .error .attributeError ∧
    countKind "response" (logger (track_event env0 (some (.val (.int 7)))) req0 w0).2.log
      = 0 ∧
    countKind "request" (logger (track_event env0 (some (.val (.int 7)))) req0 w0).2.log
      = 1 :=
  ⟨rfl, by decide, by decide⟩

/-- C3, amended: for every inbound request the middleware appends a
`request` event before dispatching; when the wrapped handler returns a
response (of any status, including error statuses), a `response` event with
the final status code is appended after the handler's own writes; but when
the wrapped handler raises, the exception propagates (there is no
`try/finally`) and no `response` event is appended. -/
theorem claim_C3_middleware_events (handler : Handler) (req : Req) (w : World) :
    (loggerPre req w).2.log
      = w.log ++ [request_event (now_iso (sid_from_req req w).2.clock) (sid_from_req req w).1
          (ip_from_req req) req.path req.method] ∧
    (∀ res w4, handler req (loggerPre req w).2 = (.ok res, w4) →
       ∃ r2, logger handler req w
           = (.ok r2, log_event w4.tick.2
               (response_event w4.tick.1 (loggerPre req w).1 (ip_from_req req) req.path
                 res.status (HONEY_ROUTES.contains req.path))) ∧
         r2.status = res.status) ∧
    (∀ e w4, handler req (loggerPre req w).2 = (.error e, w4) →
       logger handler req w = (.error e, w4)) := by
  refine ⟨loggerPre_log req w, fun res w4 hh => ?_, fun e w4 hh => logger_err _ _ _ _ _ hh⟩
  refine ⟨_, logger_ok handler req w res w4 hh, ?_⟩
  by_cases hc : (req.cookies.lookup "hp_sid").isNone
  · simp [hc]
  · simp [hc]

theorem claim_C3_middleware_events_witness :
    logger (fun _ w => (.error .runtimeError, w)) req0 w0
      = (.error .runtimeError, (loggerPre req0 w0).2) :=
  (claim_C3_middleware_events (fun _ w => (.error .runtimeError, w)) req0 w0).2.2
    .runtimeError (loggerPre req0 w0).2 rfl

/-- C5: a GET to `/{name}` for an enumerated decoy name appends exactly one
`profile_view` event (carrying the profile name, the ip and a sid),
regardless of the notifier environment (`env` is universally quantified:
unconfigured, unreachable or failing alike); a GET for a name outside the
enumerated set yields a 404 response and appends no `profile_view` event. -/
theorem claim_C5_decoy_profile_view (env : NotifEnv) (name : String) (req : Req) (w : World) :
    (name ∈ PROFILE_NAMES →
       ∃ res w2 ts1 ts2 ts3 s s2,
         logger (show_profile env name) req w = (.ok res, w2) ∧
         res.status = 200 ∧
         w2.log = w.log ++
           [request_event ts1 s (ip_from_req req) req.path req.method,
            profile_view_event ts2 name (ip_from_req req) s2,
            response_event ts3 s (ip_from_req req) req.path 200
              (HONEY_ROUTES.contains req.path)] ∧
         countKind "profile_view" w2.log = countKind "profile_view" w.log + 1) ∧
    (name ∉ PROFILE_NAMES →
       ∃ res w2,
         logger (show_profile env name) req w = (.ok res, w2) ∧
         res.status = 404 ∧
         countKind "profile_view" w2.log = countKind "profile_view" w.log) := by
  constructor
  · intro hmem
    have hcont : PROFILE_NAMES.contains name = true := contains_eq_true_of_mem hmem
    have hh : show_profile env name req (loggerPre req w).2
        = (.ok { status := 200, setCookies := [], body := "profile " ++ name },
           log_event (sid_from_req req (loggerPre req w).2).2.tick.2
             (profile_view_event (sid_from_req req (loggerPre req w).2).2.tick.1 name
               (ip_from_req req) (sid_from_req req (loggerPre req w).2).1)) := by
      simp [show_profile, hcont, hmem]
    have hmain := logger_ok (show_profile env name) req w _ _ hh
    have hlog : (log_event (log_event (sid_from_req req (loggerPre req w).2).2.tick.2
          (profile_view_event (sid_from_req req (loggerPre req w).2).2.tick.1 name
            (ip_from_req req) (sid_from_req req (loggerPre req w).2).1)).tick.2
          (response_event (log_event (sid_from_req req (loggerPre req w).2).2.tick.2
              (profile_view_event (sid_from_req req (loggerPre req w).2).2.tick.1 name
                (ip_from_req req) (sid_from_req req (loggerPre req w).2).1)).tick.1
            (loggerPre req w).1 (ip_from_req req) req.path
            ({ status := 200, setCookies := [], body := "profile " ++ name } : Resp).status
            (HONEY_ROUTES.contains req.path))).log
        = w.log ++
          [request_event (now_iso (sid_from_req req w).2.clock) (sid_from_req req w).1
             (ip_from_req req) req.path req.method,
           profile_view_event (sid_from_req req (loggerPre req w).2).2.tick.1 name
             (ip_from_req req) (sid_from_req req (loggerPre req w).2).1,
           response_event (log_event (sid_from_req req (loggerPre req w).2).2.tick.2
               (profile_view_event (sid_from_req req (loggerPre req w).2).2.tick.1 name
                 (ip_from_req req) (sid_from_req req (loggerPre req w).2).1)).tick.1
             (sid_from_req req w).1 (ip_from_req req) req.path 200
             (HONEY_ROUTES.contains req.path)] := by
      simp only [log_event, World.tick, (sid_from_req_log req (loggerPre req w).2).1,
        loggerPre_log req w, loggerPre_sid]
      simp [List.append_assoc]
    refine ⟨_, _, _, _, _, _, _, hmain, ?_, hlog, ?_⟩
    · by_cases hc : (req.cookies.lookup "hp_sid").isNone <;> simp [hc]
    · rw [hlog, countKind_append]
      simp [countKind, List.filter, request_event_kind, response_event_kind,
        profile_view_event_kind]
  · intro hmem
    have hcont : PROFILE_NAMES.contains name = false :=
      contains_eq_false_of_not_mem hmem
    have hh : show_profile env name req (loggerPre req w).2
        = (.ok { status := 404, setCookies := [], body := "Profile not found" },
           (loggerPre req w).2) := by
      simp [show_profile, hcont, hmem]
    have hmain := logger_ok (show_profile env name) req w _ _ hh
    have hlog : (log_event ((loggerPre req w).2).tick.2
          (response_event ((loggerPre req w).2).tick.1 (loggerPre req w).1 (ip_from_req req)
            req.path
            ({ status := 404, setCookies := [], body := "Profile not found" } : Resp).status
            (HONEY_ROUTES.contains req.path))).log
        = w.log ++
          [request_event (now_iso (sid_from_req req w).2.clock) (sid_from_req req w).1
             (ip_from_req req) req.path req.method,
           response_event ((loggerPre req w).2).tick.1 (sid_from_req req w).1
             (ip_from_req req) req.path 404 (HONEY_ROUTES.contains req.path)] := by
      simp only [log_event, World.tick, loggerPre_log req w, loggerPre_sid]
      simp [List.append_assoc]
    refine ⟨_, _, hmain, ?_, ?_⟩
    · by_cases hc : (req.cookies.lookup "hp_sid").isNone <;> simp [hc]
    · rw [hlog, countKind_append]
      simp [countKind, List.filter, request_event_kind, response_event_kind]

theorem claim_C5_decoy_profile_view_witness :
    countKind "profile_view" (logger (show_profile env0 "Jack") req0 w0).2.log = 1 ∧
    (∃ res, (logger (show_profile env0 "Zed") req0 w0).1 = .ok res ∧ res.status = 404) := by
  constructor
  · obtain ⟨res, w2, ts1, ts2, ts3, s, s2, heq, hst, hlog, hcount⟩ :=
      (claim_C5_decoy_profile_view env0 "Jack" req0 w0).1 (by decide)
    rw [show (logger (show_profile env0 "Jack") req0 w0).2 = w2 by rw [heq]]
    rw [hcount]
    decide
  · obtain ⟨res, w2, heq, hst, _⟩ :=
      (claim_C5_decoy_profile_view env0 "Zed" req0 w0).2 (by decide)
    exact ⟨res, by rw [heq], hst⟩

/-! ## Session identifier claims (C4) -/

theorem uuid4_inj {m n : Nat} (h : uuid4 m = uuid4 n) : m = n := by
  unfold uuid4 at h
  have hl : 'u' :: '-' :: natDec m = 'u' :: '-' :: natDec n := by
    injection h
  injection hl with _ hl2
  injection hl2 with _ hl3
  exact natDec_inj hl3

theorem uuid4_succ_ne (n : Nat) : uuid4 (n + 1) ≠ uuid4 n := by
  intro h
  have := uuid4_inj h
  omega

/-- `req.cookies.get("hp_sid") or str(uuid4())` with a present, truthy
(nonempty) cookie returns the cookie value and leaves the world unchanged. -/
theorem sid_from_req_cookie {req : Req} {v : String} (w : World)
    (hv : req.cookies.lookup "hp_sid" = some v) (hne : v ≠ "") :
    sid_from_req req w = (v, w) := by
  rw [sid_from_req.eq_def, hv]
  simp [hne]

/-- With no `hp_sid` cookie, `sid_from_req` draws the next fresh uuid. -/
theorem sid_from_req_nocookie {req : Req} (w : World)
    (hv : req.cookies.lookup "hp_sid" = none) :
    sid_from_req req w = (uuid4 w.nextUuid, { w with nextUuid := w.nextUuid + 1 }) := by
  rw [sid_from_req.eq_def, hv]
  rfl

/-- `loggerPre` does not consume uuids beyond its `sid_from_req` call. -/
theorem loggerPre_nextUuid (req : Req) (w : World) :
    (loggerPre req w).2.nextUuid = (sid_from_req req w).2.nextUuid := rfl

/-- `loggerPre` advances the clock by exactly its one `now_iso` call. -/
theorem loggerPre_clock (req : Req) (w : World) :
    (loggerPre req w).2.clock = (sid_from_req req w).2.clock + 1 := rfl

/-- C4, counterexample to the claim as stated, at two concrete requests.
First, for a request with no `hp_sid` cookie to `/Jack`: the middleware
events and the `Set-Cookie` use `uuid4 0`, but the `profile_view` event —
whose handler calls `sid_from_req` again — carries the different fresh sid
`uuid4 1`, contradicting "every event logged for that same request carries
that same single newly generated sid".  Second, for a request carrying the
cookie with the empty value: the events carry a fresh uuid rather than the
cookie's value, and no `Set-Cookie` is issued. -/
theorem claim_C4_counterexample :
    ((logger (show_profile env0 "Jack") req0 w0).2.log.map (fun e => e.lookup "sid"))
      = [some (.str (uuid4 0)), some (.str (uuid4 1)), some (.str (uuid4 0))] ∧
    uuid4 1 ≠ uuid4 0 ∧
    (match (logger (show_profile env0 "Jack") req0 w0).1 with
     | .ok r => r.setCookies
     | .error _ => []) = [("hp_sid", uuid4 0)] ∧
    ((logger (show_profile env0 "Jack")
        { req0 with cookies := [("hp_sid", "")] } w0).2.log.map (fun e => e.lookup "sid"))
      = [some (.str (uuid4 0)), some (.str (uuid4 1)), some (.str (uuid4 0))] ∧
    uuid4 0 ≠ "" ∧
    (match (logger (show_profile env0 "Jack")
        { req0 with cookies := [("hp_sid", "")] } w0).1 with
     | .ok r => r.setCookies
     | .error _ => [("x", "x")]) = [] := by
  refine ⟨by decide, by decide, by decide, by decide, by decide, by decide⟩

/-- C4, amended: for a request carrying a nonempty `hp_sid` cookie value
`v`, every event logged during a decoy-profile request carries `v` as its
sid and no cookie is set on the response.  For a request without the
cookie, the middleware resolves one fresh sid `uuid4 w.nextUuid`, uses it
in its `request` and `response` events and in the `Set-Cookie` — but the
`profile_view` event, whose handler resolves the sid independently, carries
the distinct fresh sid `uuid4 (w.nextUuid + 1)`.  (A request presenting the
cookie with an empty value behaves like the cookie-less case for sids but
receives no `Set-Cookie`.) -/
theorem claim_C4_session_sid (env : NotifEnv) (name : String) (req : Req) (w : World) :
    (∀ v, req.cookies.lookup "hp_sid" = some v → v ≠ "" →
       ∃ res w2, logger (show_profile env name) req w = (.ok res, w2) ∧
         res.setCookies = [] ∧
         ∀ e ∈ w2.log.drop w.log.length, e.lookup "sid" = some (.str v)) ∧
    (req.cookies.lookup "hp_sid" = none → name ∈ PROFILE_NAMES →
       ∃ res w2 ts1 ts2 ts3,
         logger (show_profile env name) req w = (.ok res, w2) ∧
         res.setCookies = [("hp_sid", uuid4 w.nextUuid)] ∧
         w2.log = w.log ++
           [request_event ts1 (uuid4 w.nextUuid) (ip_from_req req) req.path req.method,
            profile_view_event ts2 name (ip_from_req req) (uuid4 (w.nextUuid + 1)),
            response_event ts3 (uuid4 w.nextUuid) (ip_from_req req) req.path 200
              (HONEY_ROUTES.contains req.path)] ∧
         uuid4 (w.nextUuid + 1) ≠ uuid4 w.nextUuid) := by
  constructor
  · intro v hv hne
    have hsid1 : sid_from_req req w = (v, w) := sid_from_req_cookie w hv hne
    have hsid2 : sid_from_req req (loggerPre req w).2 = (v, (loggerPre req w).2) :=
      sid_from_req_cookie _ hv hne
    have hNone : (req.cookies.lookup "hp_sid").isNone = false := by rw [hv]; rfl
    by_cases hcmem : name ∈ PROFILE_NAMES
    · have hcont : PROFILE_NAMES.contains name = true := contains_eq_true_of_mem hcmem
      have hh : show_profile env name req (loggerPre req w).2
          = (.ok { status := 200, setCookies := [], body := "profile " ++ name },
             log_event (sid_from_req req (loggerPre req w).2).2.tick.2
               (profile_view_event (sid_from_req req (loggerPre req w).2).2.tick.1 name
                 (ip_from_req req) (sid_from_req req (loggerPre req w).2).1)) := by
        simp [show_profile, hcont, hcmem]
      have hmain := logger_ok (show_profile env name) req w _ _ hh
      have hlog : (log_event (log_event (sid_from_req req (loggerPre req w).2).2.tick.2
            (profile_view_event (sid_from_req req (loggerPre req w).2).2.tick.1 name
              (ip_from_req req) (sid_from_req req (loggerPre req w).2).1)).tick.2
            (response_event (log_event (sid_from_req req (loggerPre req w).2).2.tick.2
                (profile_view_event (sid_from_req req (loggerPre req w).2).2.tick.1 name
                  (ip_from_req req) (sid_from_req req (loggerPre req w).2).1)).tick.1
              (loggerPre req w).1 (ip_from_req req) req.path
              ({ status := 200, setCookies := [], body := "profile " ++ name } : Resp).status
              (HONEY_ROUTES.contains req.path))).log
          = w.log ++
            [request_event (now_iso w.clock) v (ip_from_req req) req.path req.method,
             profile_view_event (now_iso (w.clock + 1)) name (ip_from_req req) v,
             response_event (now_iso (w.clock + 2)) v (ip_from_req req) req.path 200
               (HONEY_ROUTES.contains req.path)] := by
        simp only [log_event, World.tick, loggerPre_log req w, loggerPre_sid,
          loggerPre_clock, hsid1, hsid2]
        simp [List.append_assoc]
      refine ⟨_, _, hmain, ?_, ?_⟩
      · simp [hNone]
      · intro e he
        rw [hlog, List.drop_left] at he
        simp only [List.mem_cons, List.not_mem_nil, or_false] at he
        rcases he with rfl | rfl | rfl
        · exact request_event_sid _ _ _ _ _
        · exact profile_view_event_sid _ _ _ _
        · exact response_event_sid _ _ _ _ _ _
    · have hcont : PROFILE_NAMES.contains name = false := contains_eq_false_of_not_mem hcmem
      have hh : show_profile env name req (loggerPre req w).2
          = (.ok { status := 404, setCookies := [], body := "Profile not found" },
             (loggerPre req w).2) := by
        simp [show_profile, hcont, hcmem]
      have hmain := logger_ok (show_profile env name) req w _ _ hh
      have hlog : (log_event ((loggerPre req w).2).tick.2
            (response_event ((loggerPre req w).2).tick.1 (loggerPre req w).1 (ip_from_req req)
              req.path
              ({ status := 404, setCookies := [], body := "Profile not found" } : Resp).status
              (HONEY_ROUTES.contains req.path))).log
          = w.log ++
            [request_event (now_iso w.clock) v (ip_from_req req) req.path req.method,
             response_event (now_iso (w.clock + 1)) v (ip_from_req req) req.path 404
               (HONEY_ROUTES.contains req.path)] := by
        simp only [log_event, World.tick, loggerPre_log req w, loggerPre_sid,
          loggerPre_clock, hsid1]
        simp [List.append_assoc]
      refine ⟨_, _, hmain, ?_, ?_⟩
      · simp [hNone]
      · intro e he
        rw [hlog, List.drop_left] at he
        simp only [List.mem_cons, List.not_mem_nil, or_false] at he
        rcases he with rfl | rfl
        · exact request_event_sid _ _ _ _ _
        · exact response_event_sid _ _ _ _ _ _
  · intro hv hcmem
    have hsid1 : sid_from_req req w
        = (uuid4 w.nextUuid, { w with nextUuid := w.nextUuid + 1 }) :=
      sid_from_req_nocookie w hv
    have hnu : (loggerPre req w).2.nextUuid = w.nextUuid + 1 := by
      rw [loggerPre_nextUuid, hsid1]
    have hsid2 : sid_from_req req (loggerPre req w).2
        = (uuid4 (w.nextUuid + 1),
           { (loggerPre req w).2 with nextUuid := (loggerPre req w).2.nextUuid + 1 }) := by
      rw [sid_from_req_nocookie _ hv, hnu]
    have hNone : (req.cookies.lookup "hp_sid").isNone = true := by rw [hv]; rfl
    have hcont : PROFILE_NAMES.contains name = true := contains_eq_true_of_mem hcmem
    have hh : show_profile env name req (loggerPre req w).2
        = (.ok { status := 200, setCookies := [], body := "profile " ++ name },
           log_event (sid_from_req req (loggerPre req w).2).2.tick.2
             (profile_view_event (sid_from_req req (loggerPre req w).2).2.tick.1 name
               (ip_from_req req) (sid_from_req req (loggerPre req w).2).1)) := by
      simp [show_profile, hcont, hcmem]
    have hmain := logger_ok (show_profile env name) req w _ _ hh
    have hlog : (log_event (log_event (sid_from_req req (loggerPre req w).2).2.tick.2
          (profile_view_event (sid_from_req req (loggerPre req w).2).2.tick.1 name
            (ip_from_req req) (sid_from_req req (loggerPre req w).2).1)).tick.2
          (response_event (log_event (sid_from_req req (loggerPre req w).2).2.tick.2
              (profile_view_event (sid_from_req req (loggerPre req w).2).2.tick.1 name
                (ip_from_req req) (sid_from_req req (loggerPre req w).2).1)).tick.1
            (loggerPre req w).1 (ip_from_req req) req.path
            ({ status := 200, setCookies := [], body := "profile " ++ name } : Resp).status
            (HONEY_ROUTES.contains req.path))).log
        = w.log ++
          [request_event (now_iso (sid_from_req req w).2.clock) (uuid4 w.nextUuid)
             (ip_from_req req) req.path req.method,
           profile_view_event (sid_from_req req (loggerPre req w).2).2.tick.1 name
             (ip_from_req req) (uuid4 (w.nextUuid + 1)),
           response_event (log_event (sid_from_req req (loggerPre req w).2).2.tick.2
               (profile_view_event (sid_from_req req (loggerPre req w).2).2.tick.1 name
                 (ip_from_req req) (uuid4 (w.nextUuid + 1)))).tick.1
             (uuid4 w.nextUuid) (ip_from_req req) req.path 200
             (HONEY_ROUTES.contains req.path)] := by
      simp only [log_event, World.tick, loggerPre_log req w, loggerPre_sid, hsid1, hsid2]
      simp [List.append_assoc]
    refine ⟨_, _, _, _, _, hmain, ?_, hlog, uuid4_succ_ne w.nextUuid⟩
    simp [hNone, loggerPre_sid, hsid1]

theorem claim_C4_session_sid_witness :
    (∃ res w2,
       logger (show_profile env0 "Jack") { req0 with cookies := [("hp_sid", "abc")] } w0
         = (.ok res, w2) ∧
       res.setCookies = [] ∧
       ∀ e ∈ w2.log.drop w0.log.length, e.lookup "sid" = some (.str "abc")) ∧
    (∃ res w2 ts1 ts2 ts3,
       logger (show_profile env0 "Jack") req0 w0 = (.ok res, w2) ∧
       res.setCookies = [("hp_sid", uuid4 w0.nextUuid)] ∧
       w2.log = w0.log ++
         [request_event ts1 (uuid4 w0.nextUuid) (ip_from_req req0) req0.path req0.method,
          profile_view_event ts2 "Jack" (ip_from_req req0) (uuid4 (w0.nextUuid + 1)),
          response_event ts3 (uuid4 w0.nextUuid) (ip_from_req req0) req0.path 200
            (HONEY_ROUTES.contains req0.path)] ∧
       uuid4 (w0.nextUuid + 1) ≠ uuid4 w0.nextUuid) :=
  ⟨(claim_C4_session_sid env0 "Jack" { req0 with cookies := [("hp_sid", "abc")] } w0).1
      "abc" (by decide) (by decide),
   (claim_C4_session_sid env0 "Jack" req0 w0).2 (by decide) (by decide)⟩

/-! ## Client-event ingest claims (C6) -/

/-- C6, counterexample to the claim as stated: a POST whose body is
well-formed JSON but not an object (here the body `7`) makes
`data.get("action")` raise `AttributeError` — the bare `except` only wraps
`request.json()` — so the call neither returns `{ok: true}` nor appends a
`client` event. -/
theorem claim_C6_counterexample :
    (track_event env0 (some (.val (.int 7))) req0 w0).1 = .error .attributeError ∧
    (track_event env0 (some (.val (.int 7))) req0 w0).2.log = [] :=
  ⟨rfl, rfl⟩

/-- C6, amended: for every POST whose body fails to parse as JSON (treated
as the empty object) or parses as a JSON object, the call returns the
success acknowledgment `{ok: true}` and appends exactly one `client` event;
a malformed body yields the placeholder string `"None"` (Python
`str(None)`) for both `action` and `label`.  A well-formed non-object JSON
body instead raises `AttributeError` and appends nothing. -/
theorem claim_C6_track_event (env : NotifEnv) (req : Req) (w : World) :
    ((track_event env none req w).1
        = .ok { status := 200, setCookies := [],
                body := dumps [("ok", .bool true)] } ∧
      ∃ ts s, (track_event env none req w).2.log
        = w.log ++ [client_event ts s (ip_from_req req) "None" "None"]) ∧
    (∀ fs, (track_event env (some (.obj fs))  req w).1
        = .ok { status := 200, setCookies := [],
                body := dumps [("ok", .bool true)] } ∧
      ∃ ts s, (track_event env (some (.obj fs)) req w).2.log
        = w.log ++ [client_event ts s (ip_from_req req)
            (pyStrOpt (fs.lookup "action")) (pyStrOpt (fs.lookup "label"))]) ∧
    (∀ v, (track_event env (some (.val v)) req w).1 = .error .attributeError ∧
       (track_event env (some (.val v)) req w).2.log = w.log) := by
  refine ⟨⟨rfl, ?_⟩, fun fs => ⟨rfl, ?_⟩, fun v => ⟨rfl, ?_⟩⟩
  · refine ⟨(sid_from_req req w).2.tick.1, (sid_from_req req w).1, ?_⟩
    show (log_event (sid_from_req req w).2.tick.2 _).log = _
    simp [log_event, World.tick, (sid_from_req_log req w).1, pyStrOpt]
  · refine ⟨(sid_from_req req w).2.tick.1, (sid_from_req req w).1, ?_⟩
    show (log_event (sid_from_req req w).2.tick.2 _).log = _
    simp [log_event, World.tick, (sid_from_req_log req w).1]
  · exact (sid_from_req_log req w).1

theorem claim_C6_track_event_witness :
    ((track_event env0 none req0 w0).1
        = .ok { status := 200, setCookies := [],
                body := dumps [("ok", .bool true)] } ∧
      ∃ ts s, (track_event env0 none req0 w0).2.log
        = w0.log ++ [client_event ts s (ip_from_req req0) "None" "None"]) ∧
    ((track_event env0 (some (.obj [("action", .str "click"), ("label", .str "Jack")]))
          req0 w0).1
        = .ok { status := 200, setCookies := [],
                body := dumps [("ok", .bool true)] } ∧
      ∃ ts s, (track_event env0
            (some (.obj [("action", .str "click"), ("label", .str "Jack")])) req0 w0).2.log
        = w0.log ++ [client_event ts s (ip_from_req req0) "click" "Jack"]) := by
  refine ⟨(claim_C6_track_event env0 req0 w0).1, ?_⟩
  have h := (claim_C6_track_event env0 req0 w0).2.1
      [("action", .str "click"), ("label", .str "Jack")]
  exact ⟨h.1, h.2⟩

/-! ## Stats aggregation window claim (C1) -/

/-- A line that does not decode to a bare (non-object) JSON scalar: it is
either unparseable or a JSON object.  Only such lines let `admin_stats` and
`export_csv` run to completion. -/
def objLine (ln : String) : Bool :=
  match loads ln with
  | some (.val _) => false
  | _ => true

/-- A concrete instantiation of the abstract `fromIso` timestamp reader,
used in witnesses: timestamps rendered as (optionally signed) decimal
integers; anything else, including the empty string, fails to parse. -/
def decTs (s : String) : Option Int :=
  match s.toList with
  | '-' :: c :: cs =>
    if c.isDigit ∧ (parseDigits (c :: cs) 0).2 = [] then
      some (-(((parseDigits (c :: cs) 0).1 : Int)))
    else none
  | c :: cs =>
    if c.isDigit ∧ (parseDigits (c :: cs) 0).2 = [] then
      some (((parseDigits (c :: cs) 0).1 : Int))
    else none
  | [] => none

/-- The parsed object of a log line when the aggregation keeps it: the line
parses as a JSON object and its timestamp is not strictly before the
cutoff. -/
def keptRecord (fromIso : String → Option Int) (cutoff : Int) (ln : String) : Option JObj :=
  match loads ln with
  | some (.obj fs) =>
    if tsBefore (tsOf fromIso (.obj fs)) cutoff then none else some fs
  | _ => none

/-- The per-record state update applied to a kept record. -/
def keptStep (fromIso : String → Option Int) (cutoff : Int) (st : SState) (fs : JObj) :
    SState :=
  applyRecord (tsOf fromIso (.obj fs)) st fs

/-- C1, counterexample to the claim as stated: the log line `3` parses as
JSON (the number 3) and its `ts` is missing, so by the claim the record
would be "always included" and the aggregation would succeed; instead
`obj.get("kind")` at line 191 — outside every `try` — raises
`AttributeError` and the whole stats request fails. -/
theorem claim_C1_counterexample :
    statsStep decTs 0 SState.init (String.mk ['3']) = .error .attributeError ∧
    admin_stats decTs "admin" [("user", "admin")] 168 0 [String.mk ['3']]
      = .error .attributeError :=
  ⟨rfl, rfl⟩

/-- C1, amended: restricted to logs whose parseable lines are all JSON
objects, the aggregation behaves as claimed: a record whose `ts` parses
strictly before the cutoff is skipped entirely (no state change); a record
whose `ts` is missing or unparseable is always included; a record at or
after the cutoff is included.  The whole pass equals a fold over exactly
the kept records, and the authenticated endpoint renders that fold. -/
theorem claim_C1_stats_window (fromIso : String → Option Int) (lines : List String)
    (hobj : ∀ ln ∈ lines, objLine ln = true) :
    (∀ (cutoff : Int) (st : SState),
       statsFold fromIso cutoff st lines
         = .ok ((lines.filterMap (keptRecord fromIso cutoff)).foldl
             (keptStep fromIso cutoff) st)) ∧
    (∀ (cutoff : Int) (ln : String) (fs : JObj) (st : SState),
       loads ln = some (.obj fs) →
       (∀ tv, tsOf fromIso (.obj fs) = some tv → tv < cutoff →
          statsStep fromIso cutoff st ln = .ok st) ∧
       (tsOf fromIso (.obj fs) = none →
          statsStep fromIso cutoff st ln = .ok (applyRecord none st fs)) ∧
       (∀ tv, tsOf fromIso (.obj fs) = some tv → cutoff ≤ tv →
          statsStep fromIso cutoff st ln = .ok (applyRecord (some tv) st fs))) ∧
    (∀ (adminUser : String) (sess : Session) (hours nowT : Int),
       is_logged_in adminUser sess = true →
       admin_stats fromIso adminUser sess hours nowT lines
         = .ok (.page (renderStats hours
             ((lines.filterMap (keptRecord fromIso (nowT - hours * 3600))).foldl
               (keptStep fromIso (nowT - hours * 3600)) SState.init)))) := by
  have hfold : ∀ (cutoff : Int) (l : List String), (∀ ln ∈ l, objLine ln = true) →
      ∀ st : SState,
      statsFold fromIso cutoff st l
        = .ok ((l.filterMap (keptRecord fromIso cutoff)).foldl (keptStep fromIso cutoff) st) := by
    intro cutoff l hl
    induction l with
    | nil => intro st; rfl
    | cons ln rest ih =>
      intro st
      have hln : objLine ln = true := hl ln (List.mem_cons_self ln rest)
      have hrest : ∀ x ∈ rest, objLine x = true :=
        fun x hx => hl x (List.mem_cons_of_mem ln hx)
      rw [statsFold, List.filterMap_cons]
      cases hld : loads ln with
      | none =>
        rw [show statsStep fromIso cutoff st ln = .ok st by rw [statsStep, hld],
            show keptRecord fromIso cutoff ln = none by rw [keptRecord, hld]]
        exact ih hrest st
      | some v =>
        cases v with
        | val sv =>
          exact absurd hln (by simp [objLine, hld])
        | obj fs =>
          by_cases hts : tsBefore (tsOf fromIso (.obj fs)) cutoff = true
          · rw [show statsStep fromIso cutoff st ln = .ok st by
                  rw [statsStep, hld]; simp [hts],
                show keptRecord fromIso cutoff ln = none by
                  rw [keptRecord, hld]; simp [hts]]
            exact ih hrest st
          · rw [show statsStep fromIso cutoff st ln
                  = .ok (applyRecord (tsOf fromIso (.obj fs)) st fs) by
                  rw [statsStep, hld]; simp [hts],
                show keptRecord fromIso cutoff ln = some fs by
                  rw [keptRecord, hld]; simp [hts]]
            rw [List.foldl_cons]
            exact ih hrest _
  refine ⟨fun cutoff => hfold cutoff lines hobj, fun cutoff ln fs st hld => ?_, ?_⟩
  · refine ⟨fun tv htv hlt => ?_, fun hnone => ?_, fun tv htv hge => ?_⟩
    · rw [statsStep, hld]
      simp [tsBefore, htv, hlt]
    · rw [statsStep, hld]
      simp [tsBefore, hnone]
    · rw [statsStep, hld]
      simp [tsBefore, htv]
      omega
  · intro adminUser sess hours nowT hauth
    rw [admin_stats.eq_def]
    simp only [hauth]
    rw [hfold (nowT - hours * 3600) lines hobj SState.init]
    simp

/-- Example log for the C1 witness: one record strictly before the cutoff
100, one record with no `ts`, one unparseable line, one record after the
cutoff.  Only the middle two object records are kept. -/
def exLines1 : List String :=
  [dumps [("ts", .str "50"), ("kind", .str "request"), ("ip", .str "A")],
   dumps [("kind", .str "request"), ("ip", .str "B")],
   "xx",
   dumps [("ts", .str "500"), ("kind", .str "request"), ("ip", .str "C")]]

theorem claim_C1_stats_window_witness :
    statsFold decTs 100 SState.init exLines1
      = .ok ((exLines1.filterMap (keptRecord decTs 100)).foldl (keptStep decTs 100)
          SState.init) ∧
    (exLines1.filterMap (keptRecord decTs 100)).length = 2 ∧
    statsStep decTs 100 SState.init
        (dumps [("ts", .str "50"), ("kind", .str "request"), ("ip", .str "A")])
      = .ok SState.init := by
  refine ⟨(claim_C1_stats_window decTs exLines1 (by decide)).1 100 SState.init, by decide, ?_⟩
  exact ((claim_C1_stats_window decTs exLines1 (by decide)).2.1 100
      (dumps [("ts", .str "50"), ("kind", .str "request"), ("ip", .str "A")])
      [("ts", .str "50"), ("kind", .str "request"), ("ip", .str "A")]
      SState.init (by decide)).1 50 (by decide) (by decide)

/-! ## CSV export claim (C8) -/

/-- For a positive limit, the Python slice `lines[-limit:]` is the suffix of
the last `min limit (length lines)` elements. -/
theorem pyTail_pos {limit : Int} (h : 1 ≤ limit) (l : List α) :
    pyTail limit l = l.drop (l.length - limit.toNat) := by
  have hm : -limit < 0 := by omega
  simp only [pyTail]
  rw [if_pos hm]
  congr 1
  omega

/-- Over lines that are objects or unparseable, the export loop succeeds
and produces one row per parseable line, in file order. -/
theorem exportRows_obj (lns : List String) (hobj : ∀ ln ∈ lns, objLine ln = true) :
    exportRows lns = .ok (lns.filterMap
      (fun ln => match loads ln with | some (.obj fs) => some (rowOf fs) | _ => none)) := by
  induction lns with
  | nil => rfl
  | cons ln rest ih =>
    have hln : objLine ln = true := hobj ln (List.mem_cons_self ln rest)
    have hrest := fun x hx => hobj x (List.mem_cons_of_mem ln hx)
    rw [exportRows, List.filterMap_cons]
    cases hld : loads ln with
    | none =>
      rw [show exportStep ln = .ok none by rw [exportStep, hld]]
      simp only [hld]
      exact ih hrest
    | some v =>
      cases v with
      | val sv => exact absurd hln (by simp [objLine, hld])
      | obj fs =>
        rw [show exportStep ln = .ok (some (rowOf fs)) by rw [exportStep, hld]]
        simp only [hld]
        rw [ih hrest]

theorem comma_not_mem_replaceComma (s : String) : ',' ∉ (replaceComma s).toList := by
  intro h
  rw [show (replaceComma s).toList = s.toList.map (fun c => if c = ',' then ';' else c)
        from rfl] at h
  obtain ⟨c, _, hc⟩ := List.mem_map.mp h
  by_cases hcc : c = ','
  · rw [if_pos hcc] at hc
    exact absurd hc (by decide)
  · rw [if_neg hcc] at hc
    exact hcc hc

/-- C8, counterexample to the claim as stated, in two parts.  First, with
`limit = 0` the Python slice `lines[-0:]` selects the whole log, so a
3-line log yields 3 data rows where "the last 0 lines" would yield none.
Second, a log line that parses as non-object JSON (here `3`) makes
`obj.get` at line 225 raise `AttributeError` instead of being skipped or
emitted. -/
theorem claim_C8_counterexample :
    (match export_csv "admin" [("user", "admin")] 0
        (some [dumps [("kind", .str "x")], dumps [("kind", .str "x")],
               dumps [("kind", .str "x")]]) with
     | .ok (.csv body _ _) => body
     | _ => "") = String.intercalate (String.mk ['\n'])
        (headerRow :: [rowOf [("kind", .str "x")], rowOf [("kind", .str "x")],
                       rowOf [("kind", .str "x")]]) ∧
    String.intercalate (String.mk ['\n'])
        (headerRow :: [rowOf [("kind", .str "x")], rowOf [("kind", .str "x")],
                       rowOf [("kind", .str "x")]]) ≠ headerRow ∧
    export_csv "admin" [("user", "admin")] 10 (some [String.mk ['3']])
      = .error .attributeError :=
  ⟨rfl, by decide, rfl⟩

/-- C8, amended: for `limit ≥ 1` and a log whose parseable lines are all
objects, the authenticated export renders a header plus one comma-joined
row per parseable line among the last `limit` lines, in file order, with
every comma inside a cell replaced by a semicolon (cells contain no comma);
for `limit = 0` the whole log is selected instead (Python slice `[-0:]`).
An absent log file yields an empty `text/csv` body with no attachment
header. -/
theorem claim_C8_export (adminUser : String) (sess : Session) (limit : Int)
    (lines : List String) (hlim : 1 ≤ limit)
    (hauth : is_logged_in adminUser sess = true)
    (hobj : ∀ ln ∈ lines, objLine ln = true) :
    export_csv adminUser sess limit none = .ok (.csv "" "text/csv" false) ∧
    export_csv adminUser sess limit (some lines)
      = .ok (.csv (String.intercalate (String.mk ['\n'])
          (headerRow :: (lines.drop (lines.length - limit.toNat)).filterMap
            (fun ln => match loads ln with
                       | some (.obj fs) => some (rowOf fs)
                       | _ => none))) "text/csv" true) ∧
    (∀ fs : JObj, ∀ c ∈ rowCells fs, ',' ∉ c.toList) := by
  refine ⟨?_, ?_, ?_⟩
  · rw [export_csv.eq_def]
    simp [hauth]
  · rw [export_csv.eq_def]
    simp only [hauth]
    rw [pyTail_pos hlim lines,
        exportRows_obj _ (fun x hx => hobj x (List.mem_of_mem_drop hx))]
    simp
  · intro fs c hc
    obtain ⟨col, _, hcol⟩ := List.mem_map.mp hc
    rw [← hcol]
    exact comma_not_mem_replaceComma _

theorem claim_C8_export_witness :
    export_csv "admin" [("user", "admin")] 2
        (some ["xx", dumps [("kind", .str "a")], dumps [("kind", .str "b")],
               dumps [("kind", .str "c")]])
      = .ok (.csv (String.intercalate (String.mk ['\n'])
          (headerRow :: [rowOf [("kind", .str "b")], rowOf [("kind", .str "c")]]))
          "text/csv" true) ∧
    export_csv "admin" [("user", "admin")] 2 none = .ok (.csv "" "text/csv" false) := by
  have h := claim_C8_export "admin" [("user", "admin")] 2
      ["xx", dumps [("kind", .str "a")], dumps [("kind", .str "b")],
       dumps [("kind", .str "c")]] (by decide) (by decide) (by decide)
  refine ⟨?_, h.1⟩
  rw [h.2.1]
  congr 1

/-! ## Ranking claims (C2)

Counter contents: the value stored for a key is the number of increments it
received, and the keys sit in first-encounter order. -/

/-- Boolean equality on counter keys is propositional equality. -/
theorem jbeq_true {a b : JVal} (h : a = b) : (a == b) = true := decide_eq_true h

theorem jbeq_false {a b : JVal} (h : ¬ a = b) : (a == b) = false := decide_eq_false h

/-- The count stored for `k` (0 when absent). -/
def valAt (c : Counter) (k : JVal) : Nat := (c.lookup k).getD 0

theorem valAt_incr (c : Counter) (k0 k : JVal) :
    valAt (Counter.incr c k0) k = valAt c k + (if k = k0 then 1 else 0) := by
  induction c with
  | nil =>
    by_cases hk : k = k0
    · simp [Counter.incr, valAt, List.lookup, jbeq_true hk, hk]
    · simp [Counter.incr, valAt, List.lookup, jbeq_false hk, hk]
  | cons p rest ih =>
    obtain ⟨k1, n⟩ := p
    by_cases h1 : k1 = k0
    · subst h1
      by_cases hk : k = k1
      · simp [Counter.incr, valAt, List.lookup, jbeq_true hk, hk]
      · simp [Counter.incr, valAt, List.lookup, jbeq_false hk, hk]
    · rw [show Counter.incr ((k1, n) :: rest) k0 = (k1, n) :: Counter.incr rest k0 by
            simp [Counter.incr, h1]]
      by_cases hk : k = k1
      · have hk0 : ¬ (k = k0) := fun h => h1 (hk ▸ h)
        simp [valAt, List.lookup, jbeq_true hk, hk0]
      · simp only [valAt, List.lookup] at ih ⊢
        simp [jbeq_false hk, ih]

theorem valAt_foldl_incr (ks : List JVal) : ∀ (c : Counter) (k : JVal),
    valAt (ks.foldl Counter.incr c) k = valAt c k + ks.count k := by
  induction ks with
  | nil => simp
  | cons k1 ks ih =>
    intro c k
    simp only [List.foldl_cons]
    rw [ih, valAt_incr, List.count_cons]
    by_cases hk : k = k1
    · rw [if_pos hk, jbeq_true (Eq.symm hk)]
      simp
      omega
    · rw [if_neg hk, jbeq_false (fun h => hk (Eq.symm h))]
      simp

theorem incr_keys (c : Counter) (k : JVal) :
    (Counter.incr c k).map Prod.fst
      = if (c.map Prod.fst).contains k then c.map Prod.fst
        else c.map Prod.fst ++ [k] := by
  induction c with
  | nil => simp [Counter.incr]
  | cons p rest ih =>
    obtain ⟨k1, n⟩ := p
    by_cases h1 : k1 = k
    · subst h1
      rw [show Counter.incr ((k1, n) :: rest) k1 = (k1, n + 1) :: rest by
            simp [Counter.incr]]
      simp [List.contains_cons, jbeq_true rfl]
    · rw [show Counter.incr ((k1, n) :: rest) k = (k1, n) :: Counter.incr rest k by
            simp [Counter.incr, h1]]
      have hbeq : (k == k1) = false := jbeq_false (fun h => h1 (Eq.symm h))
      simp only [List.map_cons, List.contains_cons, hbeq, Bool.false_or, ih]
      by_cases hc : (rest.map Prod.fst).contains k = true
      · rw [if_pos hc, if_pos hc]
      · rw [if_neg hc, if_neg hc]
        rfl

/-- First-encounter order of a key sequence, starting from already-seen
keys `acc`. -/
def firstOccursAux (acc : List JVal) (ks : List JVal) : List JVal :=
  ks.foldl (fun a k => if a.contains k then a else a ++ [k]) acc

/-- The distinct keys of a sequence in order of first occurrence. -/
def firstOccurs (ks : List JVal) : List JVal := firstOccursAux [] ks

theorem foldl_incr_keys (ks : List JVal) : ∀ c : Counter,
    (ks.foldl Counter.incr c).map Prod.fst = firstOccursAux (c.map Prod.fst) ks := by
  induction ks with
  | nil => intro c; rfl
  | cons k ks ih =>
    intro c
    rw [show firstOccursAux (c.map Prod.fst) (k :: ks)
          = firstOccursAux (if (c.map Prod.fst).contains k then c.map Prod.fst
                            else c.map Prod.fst ++ [k]) ks from rfl]
    rw [List.foldl_cons, ih, incr_keys]

theorem incr_keys_nodup {c : Counter} (h : (c.map Prod.fst).Nodup) (k : JVal) :
    ((Counter.incr c k).map Prod.fst).Nodup := by
  rw [incr_keys]
  by_cases hc : (c.map Prod.fst).contains k = true
  · rw [if_pos hc]; exact h
  · rw [if_neg hc]
    have hcf : (c.map Prod.fst).contains k = false := Bool.eq_false_iff.mpr hc
    exact List.Nodup.append h (List.nodup_singleton k)
      (fun a ha hak =>
        absurd ((List.mem_singleton.mp hak) ▸ ha) (not_mem_of_contains_eq_false hcf))

theorem foldl_incr_keys_nodup (ks : List JVal) : ∀ c : Counter,
    (c.map Prod.fst).Nodup → ((ks.foldl Counter.incr c).map Prod.fst).Nodup := by
  induction ks with
  | nil => intro c h; exact h
  | cons k ks ih =>
    intro c h
    rw [List.foldl_cons]
    exact ih _ (incr_keys_nodup h k)

/-- In a counter with distinct keys, a member pair's stored count is its
key's count. -/
theorem valAt_of_mem : ∀ {c : Counter}, (c.map Prod.fst).Nodup →
    ∀ {p : JVal × Nat}, p ∈ c → valAt c p.1 = p.2 := by
  intro c
  induction c with
  | nil => intro _ p hp; simp at hp
  | cons q rest ih =>
    intro hnd p hp
    rcases List.mem_cons.mp hp with rfl | hp'
    · simp [valAt, List.lookup]
    · have hq1 : q.1 ∉ rest.map Prod.fst := by
        rw [List.map_cons] at hnd
        exact (List.nodup_cons.mp hnd).1
      have hne : (p.1 == q.1) = false := by
        refine jbeq_false ?_
        intro hcon
        exact hq1 (hcon ▸ List.mem_map_of_mem Prod.fst hp')
      simp only [valAt, List.lookup, hne]
      exact ih (by rw [List.map_cons] at hnd; exact (List.nodup_cons.mp hnd).2) hp'

/-! ### Stable descending sort (model of `most_common`) -/

theorem mem_insertDesc {x z : JVal × Nat} : ∀ {l : List (JVal × Nat)},
    z ∈ insertDesc x l ↔ z = x ∨ z ∈ l := by
  intro l
  induction l with
  | nil => simp [insertDesc]
  | cons y ys ih =>
    rw [insertDesc]
    by_cases hxy : x.2 < y.2
    · rw [if_pos hxy]
      simp only [List.mem_cons, ih]
      tauto
    · rw [if_neg hxy]
      simp only [List.mem_cons]

theorem insertDesc_sorted (x : JVal × Nat) : ∀ {l : List (JVal × Nat)},
    List.Pairwise (fun a b : JVal × Nat => b.2 ≤ a.2) l →
    List.Pairwise (fun a b : JVal × Nat => b.2 ≤ a.2) (insertDesc x l) := by
  intro l
  induction l with
  | nil => intro _; simp [insertDesc]
  | cons y ys ih =>
    intro h
    obtain ⟨hy, hys⟩ := List.pairwise_cons.mp h
    rw [insertDesc]
    by_cases hxy : x.2 < y.2
    · rw [if_pos hxy]
      refine List.pairwise_cons.mpr ⟨?_, ih hys⟩
      intro z hz
      rcases mem_insertDesc.mp hz with rfl | hz'
      · omega
      · exact hy z hz'
    · rw [if_neg hxy]
      refine List.pairwise_cons.mpr ⟨?_, h⟩
      intro z hz
      rcases List.mem_cons.mp hz with rfl | hz'
      · omega
      · have := hy z hz'
        omega

theorem sortDesc_sorted (c : Counter) :
    List.Pairwise (fun a b : JVal × Nat => b.2 ≤ a.2) (sortDesc c) := by
  induction c with
  | nil => simp [sortDesc]
  | cons x c ih => exact insertDesc_sorted x ih

theorem mem_sortDesc {z : JVal × Nat} : ∀ {c : Counter}, z ∈ sortDesc c ↔ z ∈ c := by
  intro c
  induction c with
  | nil => simp [sortDesc]
  | cons x c ih =>
    rw [show sortDesc (x :: c) = insertDesc x (sortDesc c) from rfl]
    rw [mem_insertDesc]
    simp only [List.mem_cons, ih]

/-- Stability of the descending sort: restricted to any fixed count, the
sorted list keeps exactly the accumulation order. -/
theorem insertDesc_filter (x : JVal × Nat) (n0 : Nat) : ∀ (l : List (JVal × Nat)),
    (insertDesc x l).filter (fun p => decide (p.2 = n0))
      = if x.2 = n0 then x :: l.filter (fun p => decide (p.2 = n0))
        else l.filter (fun p => decide (p.2 = n0)) := by
  intro l
  induction l with
  | nil =>
    by_cases hx : x.2 = n0
    · simp [insertDesc, List.filter, decide_eq_true hx, hx]
    · simp [insertDesc, List.filter, decide_eq_false hx, hx]
  | cons y ys ih =>
    rw [insertDesc]
    by_cases hxy : x.2 < y.2
    · rw [if_pos hxy, List.filter_cons, ih]
      by_cases hy : y.2 = n0
      · have hx : ¬ (x.2 = n0) := by omega
        rw [decide_eq_true hy, if_neg hx, if_pos (by trivial), List.filter_cons,
            decide_eq_true hy, if_neg hx]
        simp
      · rw [decide_eq_false hy]
        by_cases hx : x.2 = n0
        · rw [if_pos hx, if_pos hx, List.filter_cons, decide_eq_false hy]
          simp
        · rw [if_neg hx, if_neg hx, List.filter_cons, decide_eq_false hy]
    · rw [if_neg hxy, List.filter_cons]
      by_cases hx : x.2 = n0
      · rw [decide_eq_true hx, if_pos hx]
        simp
      · rw [decide_eq_false hx, if_neg hx]
        simp

theorem sortDesc_filter (c : Counter) (n0 : Nat) :
    (sortDesc c).filter (fun p => decide (p.2 = n0))
      = c.filter (fun p => decide (p.2 = n0)) := by
  induction c with
  | nil => rfl
  | cons x c ih =>
    rw [show sortDesc (x :: c) = insertDesc x (sortDesc c) from rfl,
        insertDesc_filter, List.filter_cons, ih]
    by_cases hx : x.2 = n0
    · rw [decide_eq_true hx, if_pos hx]
      simp
    · rw [decide_eq_false hx, if_neg hx]
      simp

theorem mostCommon_length (n : Nat) (c : Counter) :
    (Counter.mostCommon n c).length ≤ n := by
  simpa [Counter.mostCommon] using List.length_take_le n (sortDesc c)

theorem mostCommon_sorted (n : Nat) (c : Counter) :
    List.Pairwise (fun a b : JVal × Nat => b.2 ≤ a.2) (Counter.mostCommon n c) :=
  (sortDesc_sorted c).sublist (List.take_sublist n (sortDesc c))

theorem mem_mostCommon {z : JVal × Nat} {n : Nat} {c : Counter}
    (h : z ∈ Counter.mostCommon n c) : z ∈ c :=
  mem_sortDesc.mp (List.take_subset n (sortDesc c) h)

/-- Among entries with equal counts, the ranking preserves the counter's
accumulation order. -/
theorem mostCommon_stable {n : Nat} {c : Counter} {a b : JVal × Nat}
    (h : List.Sublist [a, b] (Counter.mostCommon n c)) (heq : a.2 = b.2) :
    List.Sublist [a, b] c := by
  have h1 : List.Sublist [a, b] (sortDesc c) :=
    h.trans (List.take_sublist n (sortDesc c))
  have h2 : ([a, b].filter (fun p => decide (p.2 = a.2))) = [a, b] := by
    simp [List.filter, decide_eq_true (rfl : a.2 = a.2),
      decide_eq_true (Eq.symm heq)]
  have h3 := h1.filter (fun p => decide (p.2 = a.2))
  rw [h2, sortDesc_filter] at h3
  exact h3.trans (List.filter_sublist c)

/-! ### The three counters as folds over the contributing records -/

/-- The `per_ip` key contributed by a log line, when any: the line parses as
an object, survives the window filter, and has kind `request`/`response`. -/
def contribIpKey (fromIso : String → Option Int) (cutoff : Int) (ln : String) : Option JVal :=
  match loads ln with
  | some (.obj fs) =>
    if tsBefore (tsOf fromIso (.obj fs)) cutoff then none
    else if fs.lookup "kind" = some (.str "request")
            ∨ fs.lookup "kind" = some (.str "response") then
      some ((fs.lookup "ip").getD (.str "-"))
    else none
  | _ => none

/-- The `per_route` key contributed by a log line, when any. -/
def contribRouteKey (fromIso : String → Option Int) (cutoff : Int) (ln : String) :
    Option JVal :=
  match loads ln with
  | some (.obj fs) =>
    if tsBefore (tsOf fromIso (.obj fs)) cutoff then none
    else if fs.lookup "kind" = some (.str "request")
            ∨ fs.lookup "kind" = some (.str "response") then
      some ((fs.lookup "route").getD (.str "-"))
    else none
  | _ => none

/-- The `click_labels` key contributed by a log line, when any. -/
def contribLabelKey (fromIso : String → Option Int) (cutoff : Int) (ln : String) :
    Option JVal :=
  match loads ln with
  | some (.obj fs) =>
    if tsBefore (tsOf fromIso (.obj fs)) cutoff then none
    else if fs.lookup "kind" = some (.str "client")
            ∧ fs.lookup "action" = some (.str "click") then
      some ((fs.lookup "label").getD (.str "(unlabeled)"))
    else none
  | _ => none

theorem applyRecord_perIp (t : Option Int) (st : SState) (fs : JObj) :
    (applyRecord t st fs).perIp
      = if fs.lookup "kind" = some (.str "request")
           ∨ fs.lookup "kind" = some (.str "response") then
          st.perIp.incr ((fs.lookup "ip").getD (.str "-"))
        else st.perIp := by
  unfold applyRecord
  by_cases h1 : (fs.lookup "kind" = some (.str "request")
      ∨ fs.lookup "kind" = some (.str "response")) <;>
    by_cases h2 : (fs.lookup "kind" = some (.str "client")
      ∧ fs.lookup "action" = some (.str "click")) <;>
    simp [h1, h2]

theorem applyRecord_perRoute (t : Option Int) (st : SState) (fs : JObj) :
    (applyRecord t st fs).perRoute
      = if fs.lookup "kind" = some (.str "request")
           ∨ fs.lookup "kind" = some (.str "response") then
          st.perRoute.incr ((fs.lookup "route").getD (.str "-"))
        else st.perRoute := by
  unfold applyRecord
  by_cases h1 : (fs.lookup "kind" = some (.str "request")
      ∨ fs.lookup "kind" = some (.str "response")) <;>
    by_cases h2 : (fs.lookup "kind" = some (.str "client")
      ∧ fs.lookup "action" = some (.str "click")) <;>
    simp [h1, h2]

theorem applyRecord_clickLabels (t : Option Int) (st : SState) (fs : JObj) :
    (applyRecord t st fs).clickLabels
      = if fs.lookup "kind" = some (.str "client")
           ∧ fs.lookup "action" = some (.str "click") then
          st.clickLabels.incr ((fs.lookup "label").getD (.str "(unlabeled)"))
        else st.clickLabels := by
  unfold applyRecord
  by_cases h1 : (fs.lookup "kind" = some (.str "request")
      ∨ fs.lookup "kind" = some (.str "response")) <;>
    by_cases h2 : (fs.lookup "kind" = some (.str "client")
      ∧ fs.lookup "action" = some (.str "click")) <;>
    simp [h1, h2]

/-- After a successful aggregation pass, each counter equals the fold of
`Counter.incr` over the keys of its contributing records, in file order. -/
theorem statsFold_counters (fromIso : String → Option Int) (cutoff : Int) :
    ∀ (l : List String) (st0 st : SState),
      statsFold fromIso cutoff st0 l = .ok st →
      st.perIp = (l.filterMap (contribIpKey fromIso cutoff)).foldl Counter.incr st0.perIp ∧
      st.perRoute
        = (l.filterMap (contribRouteKey fromIso cutoff)).foldl Counter.incr st0.perRoute ∧
      st.clickLabels
        = (l.filterMap (contribLabelKey fromIso cutoff)).foldl Counter.incr st0.clickLabels := by
  intro l
  induction l with
  | nil =>
    intro st0 st h
    rw [statsFold] at h
    injection h with h
    subst h
    exact ⟨rfl, rfl, rfl⟩
  | cons ln rest ih =>
    intro st0 st h
    rw [statsFold] at h
    cases hstep : statsStep fromIso cutoff st0 ln with
    | error e =>
      rw [hstep] at h
      exact absurd h (by simp)
    | ok st1 =>
      rw [hstep] at h
      obtain ⟨hip, hroute, hlabel⟩ := ih st1 st h
      cases hld : loads ln with
      | none =>
        have h1 : st0 = st1 := by
          rw [statsStep, hld] at hstep
          injection hstep
        rw [List.filterMap_cons_none (by simp only [contribIpKey, hld]),
            List.filterMap_cons_none (by simp only [contribRouteKey, hld]),
            List.filterMap_cons_none (by simp only [contribLabelKey, hld])]
        rw [← h1] at hip hroute hlabel
        exact ⟨hip, hroute, hlabel⟩
      | some v =>
        cases v with
        | val sv =>
          rw [statsStep, hld] at hstep
          exact absurd hstep (by simp [tsOf, tsBefore])
        | obj fs =>
          by_cases hts : tsBefore (tsOf fromIso (.obj fs)) cutoff = true
          · have h1 : st0 = st1 := by
              simp only [statsStep, hld] at hstep
              rw [if_pos hts] at hstep
              injection hstep
            rw [List.filterMap_cons_none (by simp only [contribIpKey, hld]; rw [if_pos hts]),
                List.filterMap_cons_none (by simp only [contribRouteKey, hld]; rw [if_pos hts]),
                List.filterMap_cons_none (by simp only [contribLabelKey, hld]; rw [if_pos hts])]
            rw [← h1] at hip hroute hlabel
            exact ⟨hip, hroute, hlabel⟩
          · have h1 : applyRecord (tsOf fromIso (.obj fs)) st0 fs = st1 := by
              simp only [statsStep, hld] at hstep
              rw [if_neg hts] at hstep
              injection hstep
            refine ⟨?_, ?_, ?_⟩
            · by_cases hcond : (fs.lookup "kind" = some (.str "request")
                  ∨ fs.lookup "kind" = some (.str "response"))
              · rw [List.filterMap_cons_some
                      (by simp only [contribIpKey, hld]; rw [if_neg hts, if_pos hcond])]
                rw [List.foldl_cons, hip, ← h1, applyRecord_perIp, if_pos hcond]
              · rw [List.filterMap_cons_none
                      (by simp only [contribIpKey, hld]; rw [if_neg hts, if_neg hcond])]
                rw [hip, ← h1, applyRecord_perIp, if_neg hcond]
            · by_cases hcond : (fs.lookup "kind" = some (.str "request")
                  ∨ fs.lookup "kind" = some (.str "response"))
              · rw [List.filterMap_cons_some
                      (by simp only [contribRouteKey, hld]; rw [if_neg hts, if_pos hcond])]
                rw [List.foldl_cons, hroute, ← h1, applyRecord_perRoute, if_pos hcond]
              · rw [List.filterMap_cons_none
                      (by simp only [contribRouteKey, hld]; rw [if_neg hts, if_neg hcond])]
                rw [hroute, ← h1, applyRecord_perRoute, if_neg hcond]
            · by_cases hcond : (fs.lookup "kind" = some (.str "client")
                  ∧ fs.lookup "action" = some (.str "click"))
              · rw [List.filterMap_cons_some
                      (by simp only [contribLabelKey, hld]; rw [if_neg hts, if_pos hcond])]
                rw [List.foldl_cons, hlabel, ← h1, applyRecord_clickLabels, if_pos hcond]
              · rw [List.filterMap_cons_none
                      (by simp only [contribLabelKey, hld]; rw [if_neg hts, if_neg hcond])]
                rw [hlabel, ← h1, applyRecord_clickLabels, if_neg hcond]

/-- Inversion of a successful stats-page render. -/
theorem admin_stats_page_inv {fromIso : String → Option Int} {adminUser : String}
    {sess : Session} {hours nowT : Int} {lines : List String} {out : StatsPage}
    (h : admin_stats fromIso adminUser sess hours nowT lines = .ok (.page out)) :
    ∃ st, statsFold fromIso (nowT - hours * 3600) SState.init lines = .ok st ∧
      out = renderStats hours st := by
  simp only [admin_stats] at h
  by_cases hauth : is_logged_in adminUser sess = true
  · rw [if_neg (by simp [hauth])] at h
    cases hst : statsFold fromIso (nowT - hours * 3600) SState.init lines with
    | ok st =>
      rw [hst] at h
      refine ⟨st, rfl, ?_⟩
      simp only [Except.ok.injEq, StatsRes.page.injEq] at h
      exact h.symm
    | error e =>
      rw [hst] at h
      exact absurd h (by simp)
  · rw [if_pos (by simp [hauth])] at h
    exact absurd h (by simp)

/-- The four ranking properties for `most_common 20` of a counter built by
folding `Counter.incr` over a key sequence. -/
theorem ranking_spec (ks : List JVal) :
    (Counter.mostCommon 20 (ks.foldl Counter.incr [])).length ≤ 20 ∧
    List.Pairwise (fun a b : JVal × Nat => b.2 ≤ a.2)
      (Counter.mostCommon 20 (ks.foldl Counter.incr [])) ∧
    (∀ a b : JVal × Nat,
       List.Sublist [a, b] (Counter.mostCommon 20 (ks.foldl Counter.incr [])) →
       a.2 = b.2 → List.Sublist [a.1, b.1] (firstOccurs ks)) ∧
    (∀ p ∈ Counter.mostCommon 20 (ks.foldl Counter.incr []), p.2 = ks.count p.1) := by
  refine ⟨mostCommon_length _ _, mostCommon_sorted _ _, ?_, ?_⟩
  · intro a b hab heq
    have h1 : List.Sublist [a, b] (ks.foldl Counter.incr []) := mostCommon_stable hab heq
    have h2 := h1.map Prod.fst
    rw [foldl_incr_keys] at h2
    exact h2
  · intro p hp
    have hmem : p ∈ ks.foldl Counter.incr [] := mem_mostCommon hp
    have hnd : ((ks.foldl Counter.incr []).map Prod.fst).Nodup :=
      foldl_incr_keys_nodup ks [] (by simp)
    have hv := valAt_of_mem hnd hmem
    rw [valAt_foldl_incr] at hv
    simpa [valAt] using hv.symm

/-- C2: each of the three stats rankings (top IPs, top routes, top click
labels) has at most 20 entries, is sorted in descending order of count, is a
stable tie-break (two entries with equal counts appear in the order of their
keys' first occurrence in the accumulation order), and every listed count is
the number of contributing records for that key. -/
theorem claim_C2_rankings (fromIso : String → Option Int) (adminUser : String)
    (sess : Session) (hours nowT : Int) (lines : List String) (out : StatsPage)
    (hok : admin_stats fromIso adminUser sess hours nowT lines = .ok (.page out)) :
    (out.top_ips.length ≤ 20 ∧
     List.Pairwise (fun a b : JVal × Nat => b.2 ≤ a.2) out.top_ips ∧
     (∀ a b : JVal × Nat, List.Sublist [a, b] out.top_ips → a.2 = b.2 →
        List.Sublist [a.1, b.1]
          (firstOccurs (lines.filterMap (contribIpKey fromIso (nowT - hours * 3600))))) ∧
     (∀ p ∈ out.top_ips,
        p.2 = (lines.filterMap (contribIpKey fromIso (nowT - hours * 3600))).count p.1)) ∧
    (out.top_routes.length ≤ 20 ∧
     List.Pairwise (fun a b : JVal × Nat => b.2 ≤ a.2) out.top_routes ∧
     (∀ a b : JVal × Nat, List.Sublist [a, b] out.top_routes → a.2 = b.2 →
        List.Sublist [a.1, b.1]
          (firstOccurs (lines.filterMap (contribRouteKey fromIso (nowT - hours * 3600))))) ∧
     (∀ p ∈ out.top_routes,
        p.2 = (lines.filterMap (contribRouteKey fromIso (nowT - hours * 3600))).count p.1)) ∧
    (out.top_clicks.length ≤ 20 ∧
     List.Pairwise (fun a b : JVal × Nat => b.2 ≤ a.2) out.top_clicks ∧
     (∀ a b : JVal × Nat, List.Sublist [a, b] out.top_clicks → a.2 = b.2 →
        List.Sublist [a.1, b.1]
          (firstOccurs (lines.filterMap (contribLabelKey fromIso (nowT - hours * 3600))))) ∧
     (∀ p ∈ out.top_clicks,
        p.2 = (lines.filterMap (contribLabelKey fromIso (nowT - hours * 3600))).count p.1)) := by
  obtain ⟨st, hst, hout⟩ := admin_stats_page_inv hok
  obtain ⟨hip, hroute, hlabel⟩ :=
    statsFold_counters fromIso (nowT - hours * 3600) lines SState.init st hst
  have e1 : out.top_ips = Counter.mostCommon 20
      ((lines.filterMap (contribIpKey fromIso (nowT - hours * 3600))).foldl
        Counter.incr []) := by
    rw [hout]; simp only [renderStats, hip]; rfl
  have e2 : out.top_routes = Counter.mostCommon 20
      ((lines.filterMap (contribRouteKey fromIso (nowT - hours * 3600))).foldl
        Counter.incr []) := by
    rw [hout]; simp only [renderStats, hroute]; rfl
  have e3 : out.top_clicks = Counter.mostCommon 20
      ((lines.filterMap (contribLabelKey fromIso (nowT - hours * 3600))).foldl
        Counter.incr []) := by
    rw [hout]; simp only [renderStats, hlabel]; rfl
  rw [e1, e2, e3]
  exact ⟨ranking_spec _, ranking_spec _, ranking_spec _⟩

/-- The spec's ranking example: IP `A` ties with `C` on count, `A` occurs
first in file order, and `B` has fewer events. -/
def exLines2 : List String :=
  [dumps [("kind", .str "request"), ("ip", .str "A"), ("route", .str "/a"), ("sid", .str "s")],
   dumps [("kind", .str "request"), ("ip", .str "A"), ("route", .str "/a"), ("sid", .str "s")],
   dumps [("kind", .str "request"), ("ip", .str "C"), ("route", .str "/a"), ("sid", .str "s")],
   dumps [("kind", .str "request"), ("ip", .str "C"), ("route", .str "/a"), ("sid", .str "s")],
   dumps [("kind", .str "request"), ("ip", .str "B"), ("route", .str "/a"), ("sid", .str "s")]]

/-- The stats page rendered for `exLines2`. -/
def exPage2 : StatsPage :=
  { hours := 24
    top_ips := [(.str "A", 2), (.str "C", 2), (.str "B", 1)]
    top_routes := [(.str "/a", 5)]
    top_clicks := []
    ip_details :=
      [{ ip := .str "A", sessions := 1, last_seen := "0001-01-01 00:00:00+00:00" },
       { ip := .str "C", sessions := 1, last_seen := "0001-01-01 00:00:00+00:00" },
       { ip := .str "B", sessions := 1, last_seen := "0001-01-01 00:00:00+00:00" }] }

theorem claim_C2_rankings_witness :
    exPage2.top_ips.length ≤ 20 ∧
    List.Pairwise (fun a b : JVal × Nat => b.2 ≤ a.2) exPage2.top_ips ∧
    List.Sublist [((JVal.str "A" : JVal), 2), ((JVal.str "C" : JVal), 2)] exPage2.top_ips ∧
    List.Sublist [JVal.str "A", JVal.str "C"]
      (firstOccurs (exLines2.filterMap (contribIpKey (fun _ => none) (0 - 24 * 3600)))) ∧
    2 = (exLines2.filterMap (contribIpKey (fun _ => none) (0 - 24 * 3600))).count
          (JVal.str "A") :=
  have h := claim_C2_rankings (fun _ => none) "admin" [("user", "admin")] 24 0 exLines2
    exPage2 (by rfl)
  ⟨h.1.1, h.1.2.1, by decide,
   h.1.2.2.1 ((JVal.str "A" : JVal), 2) ((JVal.str "C" : JVal), 2) (by decide) rfl,
   h.1.2.2.2 ((JVal.str "A" : JVal), 2) (by decide)⟩

end Honeypot
